import Mathlib

/-!
Verification development for the auto-pr-screenshots action.

The TypeScript sources are shallowly embedded: pure computations become Lean
functions, browser/network effects become explicit oracles (an environment
record of Bool- or Except-valued functions), and the GitHub upload protocol
becomes a state-passing computation that records the sequence of Git API
calls it performs.  JavaScript-specific behaviour (string `split`/`trim`/
`toLowerCase`, truthiness of `""`/`0`/`undefined`) is modelled explicitly so
that every definition evaluates inside the kernel.
-/

deriving instance DecidableEq for Except

namespace AutoPrScreenshots

/-! ## JavaScript string and truthiness helpers -/

/-- Split a character list at every occurrence of `sep`, like
`String.prototype.split` with a single-character separator. -/
def splitCharAux (sep : Char) : List Char → List Char → List (List Char)
  | [], acc => [acc.reverse]
  | c :: rest, acc =>
    if c = sep then acc.reverse :: splitCharAux sep rest []
    else splitCharAux sep rest (c :: acc)

/-- JavaScript `s.split(sep)` for a one-character separator. -/
def jsSplit (s : String) (sep : Char) : List String :=
  (splitCharAux sep s.data []).map (fun cs => ⟨cs⟩)

/-- JavaScript `s.trim()`: strip leading and trailing whitespace. -/
def jsTrim (s : String) : String :=
  ⟨((s.data.dropWhile Char.isWhitespace).reverse.dropWhile Char.isWhitespace).reverse⟩

/-- JavaScript `s.toLowerCase()` (ASCII-adequate for the viewport presets). -/
def jsToLower (s : String) : String :=
  ⟨s.data.map Char.toLower⟩

/-- JavaScript truthiness of an optional string: `undefined` and `""` are falsy. -/
def strTruthy : Option String → Bool
  | none => false
  | some s => !(s == "")

/-- JavaScript truthiness of an optional number: `undefined` and `0` are falsy. -/
def natTruthy : Option Nat → Bool
  | none => false
  | some n => !(n == 0)

/-! ## Data model (src/types.ts) -/

/-- `Viewport` from types.ts. -/
structure Viewport where
  width : Nat
  height : Nat
  deviceScaleFactor : Option Nat := none
deriving DecidableEq, Repr

/-- The `fill` payload of a `ScreenshotStep` from types.ts. -/
structure FillStep where
  selector : String
  text : String
deriving DecidableEq, Repr

/-- `ScreenshotStep` from types.ts: an object with several optional fields,
kept as such (not a tagged union) to stay faithful to the source. -/
structure ScreenshotStep where
  click : Option String := none
  fill : Option FillStep := none
  wait : Option Nat := none
  waitFor : Option String := none
deriving DecidableEq, Repr

/-- `ScreenshotConfig` from types.ts. -/
structure ScreenshotConfig where
  name : String
  url : String
  viewport : Viewport
  fullPage : Option Bool := none
  waitFor : Option String := none
  wait : Option Nat := none
  steps : Option (List ScreenshotStep) := none
deriving DecidableEq, Repr

/-- The `output.comment` record of `Config` from types.ts. -/
structure CommentConfig where
  template : String
  group_by : String
deriving DecidableEq, Repr

/-- The `output` record of `Config` from types.ts. -/
structure OutputConfig where
  branch : String
  comment : CommentConfig
deriving DecidableEq, Repr

/-- The `skip` record of `Config` from types.ts. -/
structure SkipConfig where
  label : Option String := none
  wipTitles : Option Bool := none
deriving DecidableEq, Repr

/-- `Config` from types.ts. -/
structure Config where
  version : Nat
  screenshots : List ScreenshotConfig
  output : OutputConfig
  skip : Option SkipConfig := none
deriving DecidableEq, Repr

/-- `CapturedScreenshot` from types.ts (the Artifact of the spec). -/
structure CapturedScreenshot where
  name : String
  browser : String
  path : String
deriving DecidableEq, Repr

/-- `UploadedScreenshot` from types.ts (the PublishedArtifact of the spec). -/
structure UploadedScreenshot where
  name : String
  browser : String
  url : String
deriving DecidableEq, Repr

/-! ## Capture engine (src/screenshot-capture.ts)

Browser automation is effectful; each Playwright primitive that can fail is
replaced by a Bool-valued oracle telling whether that call succeeds for a
given browser name and argument.  `page.waitForTimeout` never fails and so
has no oracle. -/

/-- Outcome oracles for the Playwright primitives used by captureScreenshot. -/
structure CaptureEnv where
  /-- `browser.newContext` with the target viewport succeeding. -/
  newContextOk : String → Viewport → Bool
  /-- `page.goto(url, networkidle, 30s)` plus `waitForLoadState` succeeding. -/
  gotoOk : String → String → Bool
  /-- `page.waitForSelector(sel, visible, 10s)` finding the selector in time. -/
  selectorVisible : String → String → Bool
  /-- `page.click(sel)` succeeding. -/
  clickOk : String → String → Bool
  /-- `page.fill(sel, text)` succeeding. -/
  fillOk : String → FillStep → Bool
  /-- `page.waitForSelector(sel, visible)` inside a step succeeding. -/
  stepSelectorOk : String → String → Bool
  /-- `page.screenshot` writing the given filepath succeeding. -/
  screenshotOk : String → String → Bool

/-- One interaction step of `executeSteps` (screenshot-capture.ts lines 132-156)
succeeding.  Each field is guarded by its JavaScript truthiness test; a plain
`wait` never fails.  A step whose first action fails aborts the sequence, but
for the success/failure of the whole sequence the conjunction is equivalent. -/
def stepOk (env : CaptureEnv) (browserName : String) (step : ScreenshotStep) : Bool :=
  (match step.click with
   | some sel => if sel = "" then true else env.clickOk browserName sel
   | none => true) &&
  (match step.fill with
   | some f => env.fillOk browserName f
   | none => true) &&
  (match step.waitFor with
   | some sel => if sel = "" then true else env.stepSelectorOk browserName sel
   | none => true)

/-- Filename computed in captureScreenshot (line 64). -/
def screenshotFilename (c : ScreenshotConfig) (browserName : String) : String :=
  c.name ++ "-" ++ browserName ++ ".png"

/-- `path.join(process.cwd(), 'screenshots', filename)` with the (constant)
working directory elided. -/
def screenshotFilepath (c : ScreenshotConfig) (browserName : String) : String :=
  "screenshots/" ++ screenshotFilename c browserName

/-- The guarded `executeSteps` call (lines 104-107): only run when `steps` is
present and nonempty. -/
def stepsPhaseOk (env : CaptureEnv) (browserName : String) (c : ScreenshotConfig) : Bool :=
  match c.steps with
  | some steps => if steps.length > 0 then steps.all (stepOk env browserName) else true
  | none => true

/-- `captureScreenshot` (screenshot-capture.ts lines 59-130).  The whole body
is wrapped in try/catch returning `null` on any error, hence `Option`.  The
`waitFor` phase (lines 86-96) observes the selector oracle and discards the
outcome: its `catch` only logs, and capture proceeds regardless.  The `wait`
phase (lines 98-101) and `context.close` cannot fail. -/
def captureScreenshot (env : CaptureEnv) (c : ScreenshotConfig) (browserName : String) :
    Option CapturedScreenshot :=
  if env.newContextOk browserName c.viewport then
    if env.gotoOk browserName c.url then
      let _selectorFound : Bool :=
        if strTruthy c.waitFor then env.selectorVisible browserName (c.waitFor.getD "")
        else true
      if stepsPhaseOk env browserName c then
        if env.screenshotOk browserName (screenshotFilepath c browserName) then
          some { name := c.name, browser := browserName, path := screenshotFilepath c browserName }
        else none
      else none
    else none
  else none

/-- The keys of `BROWSER_MAP` (screenshot-capture.ts lines 7-11). -/
def BROWSER_MAP : List String := ["chromium", "firefox", "webkit"]

/-- `browsers.split(',').map((b) => b.trim())` (line 24). -/
def parseBrowserList (browsers : String) : List String :=
  (jsSplit browsers ',').map jsTrim

/-- `captureScreenshots` (screenshot-capture.ts lines 19-57): for each entry
of the browser list, unknown names are skipped with a warning; for known
browsers every screenshot config is attempted in order and the non-null
results are pushed.  `browsers = 'chromium'` is the destructuring default
applied when the option is `undefined`. -/
def captureScreenshots (env : CaptureEnv) (config : Config) (browsers : Option String) :
    List CapturedScreenshot :=
  (parseBrowserList (browsers.getD "chromium")).flatMap (fun browserName =>
    if BROWSER_MAP.contains browserName then
      config.screenshots.filterMap (fun c => captureScreenshot env c browserName)
    else [])

/-- The recognized engine identifiers of a run: the parsed browser list
restricted to `BROWSER_MAP` keys (duplicates kept, as in the source loop). -/
def recognizedBrowsers (browsers : Option String) : List String :=
  (parseBrowserList (browsers.getD "chromium")).filter (fun b => BROWSER_MAP.contains b)

/-- All failure-relevant stages of one (target, browser) capture succeeding. -/
def captureOk (env : CaptureEnv) (c : ScreenshotConfig) (browserName : String) : Bool :=
  env.newContextOk browserName c.viewport && env.gotoOk browserName c.url &&
    stepsPhaseOk env browserName c &&
    env.screenshotOk browserName (screenshotFilepath c browserName)

/-- The Artifact produced for a succeeding (target, browser) pair. -/
def mkShot (c : ScreenshotConfig) (browserName : String) : CapturedScreenshot :=
  { name := c.name, browser := browserName, path := screenshotFilepath c browserName }

/-! ## Viewport normalization (src/config-loader.ts lines 141-168) -/

/-- The `string | Viewport` input shape of `normalizeViewport`. -/
inductive ViewportInput where
  | str (s : String)
  | obj (v : Viewport)
deriving DecidableEq, Repr

/-- The error message thrown for an unknown string preset (lines 157-159). -/
def unknownViewportMsg (s : String) : String :=
  "Unknown viewport preset: " ++ s ++
    ". Use desktop, laptop, tablet, mobile, or specify custom dimensions."

/-- `normalizeViewport` (config-loader.ts lines 141-168).  `if (!viewport)`
is a JavaScript truthiness test, so it also catches the empty string; the
`switch` compares `viewport.toLowerCase()`; an object input is rebuilt from
exactly its `width`, `height` and `deviceScaleFactor` fields.  A `throw`
becomes `Except.error`. -/
def normalizeViewport : Option ViewportInput → Except String Viewport
  | none => .ok { width := 1440, height := 900 }
  | some (.str s) =>
    if s = "" then .ok { width := 1440, height := 900 }
    else
      let l := jsToLower s
      if l = "desktop" then .ok { width := 1440, height := 900 }
      else if l = "laptop" then .ok { width := 1366, height := 768 }
      else if l = "tablet" then .ok { width := 768, height := 1024 }
      else if l = "mobile" then .ok { width := 390, height := 844, deviceScaleFactor := some 3 }
      else .error (unknownViewportMsg s)
  | some (.obj v) => .ok { width := v.width, height := v.height, deviceScaleFactor := v.deviceScaleFactor }

/-! ## Action-input overrides (src/index.ts variant, applyActionOverrides) -/

/-- The `overrides` argument of `applyActionOverrides`: the `url` and
`branch` action inputs (GitHub Actions inputs are strings, `""` when unset;
`none` models an absent property, both are falsy). -/
structure ActionOverrides where
  url : Option String := none
  branch : Option String := none
deriving DecidableEq, Repr

/-- `applyActionOverrides` (index.ts lines 260-288): when the `url` override
is truthy every screenshot is rebuilt by spread with only `url` replaced;
when the `branch` override is truthy `output` is rebuilt by spread with only
`branch` replaced. -/
def applyActionOverrides (config : Config) (overrides : ActionOverrides) : Config :=
  let result := config
  let result :=
    if strTruthy overrides.url then
      { result with screenshots :=
          result.screenshots.map (fun s => { s with url := overrides.url.getD "" }) }
    else result
  if strTruthy overrides.branch then
    { result with output := { result.output with branch := overrides.branch.getD "" } }
  else result

/-! ## Comment marker (src/cleanup.ts) and the renderer -/

/-- The hidden marker token scanned for in cleanup.ts line 56. -/
def screenshotsMarker : String := "<!-- auto-pr-screenshots -->"

/-- The visible comment header scanned for in cleanup.ts line 57. -/
def commentHeader : String := "📸 **PR Screenshots**"

/-- The filter of `deleteScreenshotComments` (cleanup.ts lines 54-58): a
comment is recognized as this tool's when its body contains the marker token
or the header string (`String.prototype.includes`, modelled as a
character-list infix test). -/
def isScreenshotComment (body : String) : Bool :=
  decide (screenshotsMarker.data <:+: body.data) ||
    decide (commentHeader.data <:+: body.data)

/-- Modelled from the spec: `generateCommentBody` (comment-poster.ts) is not
among the provided source files; only its callers (index.ts, cleanup.ts's
marker scan) and its tests appear.  Per spec §4.3 the renderer produces one
string that carries the fixed hidden marker token and the header, one entry
per PublishedArtifact (name, engine, public URL), and an optional
attribution footer. -/
def generateCommentBody (shots : List UploadedScreenshot) (showAttribution : Bool) : String :=
  screenshotsMarker ++ "\n" ++ commentHeader ++ "\n" ++
    String.intercalate "\n"
      (shots.map (fun s => "- " ++ s.name ++ " (" ++ s.browser ++ "): " ++ s.url)) ++
    (if showAttribution then "\n\n*Generated by auto-pr-screenshots*" else "")

/-! ## Upload/publish protocol (src/screenshot-uploader.ts)

The octokit Git data API is modelled as a response oracle `GitApi.respond`
mapping each request to either a result string (a sha, a default-branch
name, a tree sha) or an error carrying an HTTP status.  An upload
computation threads the list of API requests issued so far, so that
ordering and all-or-nothing properties are statable. -/

/-- Error object thrown by an octokit call (`status` is the HTTP status). -/
structure GitErr where
  status : Nat
  msg : String
deriving DecidableEq, Repr

/-- One octokit Git request as issued by `uploadScreenshots`. -/
inductive GitOp where
  | getBranch (branch : String)
  | getRepo
  | getRef (ref : String)
  | createRef (ref : String) (sha : String)
  | getCommit (sha : String)
  | createBlob (content : String)
  | createTree (baseTree : String) (entries : List (String × String))
  | createCommit (message : String) (tree : String) (parents : List String)
  | updateRef (ref : String) (sha : String)
deriving DecidableEq, Repr

/-- The external world of an upload: octokit responses and `fs.readFile`.
`respond` returns the datum the source destructures from each response
(`blob.sha`, `ref.object.sha`, `defaultBranch.default_branch`,
`baseCommit.tree.sha`, …; base64 transport encoding of blob contents is
elided as a bijection). -/
structure GitApi where
  respond : GitOp → Except GitErr String
  readFile : String → Except GitErr String

/-- `github.context` as consumed by the uploader. -/
structure GhContext where
  owner : String
  repo : String
  /-- `context.payload.pull_request?.number`. -/
  pullRequestNumber : Option Nat
  runNumber : Nat
deriving DecidableEq, Repr

/-- The `options` argument of `uploadScreenshots` plus the two timestamps the
source draws from the clock: `timestamp` is `new Date().toISOString()` with
`[:.]` replaced by `-` (line 85), `generatedOn` the fresh ISO timestamp
interpolated into the README body (line 190). -/
structure UploadOptions where
  branch : String
  ctx : GhContext
  timestamp : String
  generatedOn : String
deriving DecidableEq, Repr

/-- An upload computation: threads the request trace, may fail. -/
def UploadM (α : Type) : Type := List GitOp → List GitOp × Except GitErr α

instance : Monad UploadM where
  pure a := fun tr => (tr, .ok a)
  bind x f := fun tr =>
    match x tr with
    | (tr', .ok a) => f a tr'
    | (tr', .error e) => (tr', .error e)

/-- Issue one octokit request: it is appended to the trace and its response
decides success. -/
def callApi (api : GitApi) (op : GitOp) : UploadM String :=
  fun tr => (tr ++ [op], api.respond op)

/-- `fs.readFile`: fallible but not an API request. -/
def readFileM (api : GitApi) (p : String) : UploadM String :=
  fun tr => (tr, api.readFile p)

theorem uploadM_bind_def {α β : Type} (x : UploadM α) (f : α → UploadM β) :
    x >>= f = fun tr =>
      match x tr with
      | (tr', .ok a) => f a tr'
      | (tr', .error e) => (tr', .error e) := rfl

theorem uploadM_pure_def {α : Type} (a : α) :
    (pure a : UploadM α) = fun tr => (tr, .ok a) := rfl

/-- `path.basename` for the slash-separated paths used here. -/
def basename (p : String) : String := (jsSplit p '/').getLastD ""

/-- `context.payload.pull_request?.number || context.runNumber` (line 84);
JavaScript `||` also falls through on the falsy number `0`. -/
def prNum (ctx : GhContext) : Nat :=
  match ctx.pullRequestNumber with
  | some n => if n = 0 then ctx.runNumber else n
  | none => ctx.runNumber

/-- `pr-<number>/<timestamp>` (line 88). -/
def screenshotDirOf (opts : UploadOptions) : String :=
  "pr-" ++ toString (prNum opts.ctx) ++ "/" ++ opts.timestamp

/-- The static raw-content URL of one uploaded file (line 181). -/
def rawUrl (opts : UploadOptions) (filePath : String) : String :=
  "https://raw.githubusercontent.com/" ++ opts.ctx.owner ++ "/" ++ opts.ctx.repo ++
    "/" ++ opts.branch ++ "/" ++ filePath

/-- Branch existence check (lines 95-111): a 404 from `getBranch` means the
branch does not exist; any other error is rethrown. -/
def checkBranchExists (api : GitApi) (branch : String) : UploadM Bool :=
  fun tr =>
    match callApi api (.getBranch branch) tr with
    | (tr', .ok _) => (tr', .ok true)
    | (tr', .error e) => if e.status = 404 then (tr', .ok false) else (tr', .error e)

/-- Base commit resolution (lines 113-144): an existing branch's tip, or the
default branch's tip after creating the branch there. -/
def resolveBaseSha (api : GitApi) (branch : String) : UploadM String := do
  let branchExists ← checkBranchExists api branch
  if branchExists then
    callApi api (.getRef ("heads/" ++ branch))
  else do
    let defaultBranch ← callApi api .getRepo
    let sha ← callApi api (.getRef ("heads/" ++ defaultBranch))
    let _ ← callApi api (.createRef ("refs/heads/" ++ branch) sha)
    pure sha

/-- One `UploadedScreenshot` as pushed in the upload loop (lines 178-182). -/
def mkUploaded (opts : UploadOptions) (dir : String) (s : CapturedScreenshot) :
    UploadedScreenshot :=
  { name := s.name, browser := s.browser, url := rawUrl opts (dir ++ "/" ++ basename s.path) }

/-- The per-screenshot loop (lines 157-185): read the file, create a blob,
record its tree path and the derived public URL. -/
def uploadEach (api : GitApi) (opts : UploadOptions) (dir : String) :
    List CapturedScreenshot → UploadM (List (String × String) × List UploadedScreenshot)
  | [] => pure ([], [])
  | s :: rest => do
    let content ← readFileM api s.path
    let blobSha ← callApi api (.createBlob content)
    let filePath := dir ++ "/" ++ basename s.path
    let (blobs, uploaded) ← uploadEach api opts dir rest
    pure ((filePath, blobSha) :: blobs, mkUploaded opts dir s :: uploaded)

/-- The README manifest body (lines 188-194). -/
def readmeContent (pr : Nat) (generatedOn : String) (shots : List CapturedScreenshot) : String :=
  "# Screenshots for PR #" ++ toString pr ++ "\n\nGenerated on: " ++ generatedOn ++
    "\n\n## Screenshots\n" ++
    String.intercalate "\n" (shots.map (fun s => "- " ++ s.name ++ " (" ++ s.browser ++ ")")) ++
    "\n"

/-- The commit message (line 241). -/
def commitMessage (opts : UploadOptions) : String :=
  "Screenshots for PR #" ++ toString (prNum opts.ctx) ++ " (" ++ opts.timestamp ++ ")"

/-- `uploadScreenshots` (screenshot-uploader.ts lines 72-265).  The outer
try/catch only logs before rethrowing, so it is the identity on errors. -/
def uploadScreenshots (api : GitApi) (screenshots : List CapturedScreenshot)
    (opts : UploadOptions) : UploadM (List UploadedScreenshot) := do
  let pr := prNum opts.ctx
  let dir := screenshotDirOf opts
  let baseSha ← resolveBaseSha api opts.branch
  let baseTreeSha ← callApi api (.getCommit baseSha)
  let (blobs, uploaded) ← uploadEach api opts dir screenshots
  let readmeSha ← callApi api (.createBlob (readmeContent pr opts.generatedOn screenshots))
  let latestSha ← callApi api (.createBlob opts.timestamp)
  let entries := blobs ++
    [(dir ++ "/README.md", readmeSha), ("pr-" ++ toString pr ++ "/latest", latestSha)]
  let treeSha ← callApi api (.createTree baseTreeSha entries)
  let commitSha ← callApi api (.createCommit (commitMessage opts) treeSha [baseSha])
  let _ ← callApi api (.updateRef ("heads/" ++ opts.branch) commitSha)
  pure uploaded

/-! ## Post-capture control flow of run() (src/index.ts lines 126-159) -/

/-- The caller-visible outcome of the post-capture phase of `run`. -/
inductive RunPhaseResult where
  /-- `core.setFailed(message)` followed by `process.exit(1)`. -/
  | failedRun (message : String)
  /-- The early `return` on zero screenshots with `fail-on-error` false. -/
  | earlyReturn
  /-- The outer catch swallowing an error because `fail-on-error` is false. -/
  | errorSwallowed (message : String)
  /-- Upload succeeded; `commented` records whether a PR comment was posted. -/
  | completed (uploaded : List UploadedScreenshot) (commented : Bool)
deriving DecidableEq, Repr

/-- The error message of the zero-screenshot condition (index.ts line 127). -/
def noScreenshotsMessage : String :=
  "No screenshots were captured. Check your configuration and logs above."

/-- The post-capture control flow of `run` (index.ts lines 126-159): the
zero-artifact condition is checked first and the `fail-on-error` policy flag
decides between failing the run and returning early; otherwise the upload
protocol runs (its request trace is returned alongside the outcome), a
comment is posted unless `skip-comment` is set or the event is not a pull
request, and an upload error reaches the outer catch where the same policy
flag decides again. -/
def runAfterCapture (api : GitApi) (opts : UploadOptions)
    (failOnError skipComment eventIsPullRequest : Bool)
    (screenshots : List CapturedScreenshot) : RunPhaseResult × List GitOp :=
  if screenshots.length = 0 then
    if failOnError then (.failedRun noScreenshotsMessage, [])
    else (.earlyReturn, [])
  else
    match uploadScreenshots api screenshots opts [] with
    | (tr, .ok uploaded) => (.completed uploaded (!skipComment && eventIsPullRequest), tr)
    | (tr, .error e) =>
      (if failOnError then .failedRun e.msg else .errorSwallowed e.msg, tr)

/-! ## Capture engine lemmas -/

theorem captureScreenshot_eq (env : CaptureEnv) (c : ScreenshotConfig) (b : String) :
    captureScreenshot env c b = if captureOk env c b then some (mkShot c b) else none := by
  unfold captureScreenshot captureOk mkShot
  cases h1 : env.newContextOk b c.viewport <;>
    cases h2 : env.gotoOk b c.url <;>
    cases h3 : stepsPhaseOk env b c <;>
    cases h4 : env.screenshotOk b (screenshotFilepath c b) <;>
    simp [h1, h2, h3, h4]

theorem filterMap_if_eq {α β : Type} (p : α → Bool) (g : α → β) (l : List α) :
    l.filterMap (fun a => if p a then some (g a) else none) = (l.filter p).map g := by
  induction l with
  | nil => rfl
  | cons hd tl ih =>
    by_cases h : p hd <;> simp [List.filterMap_cons, List.filter_cons, h, ih]

theorem captureScreenshots_eq (env : CaptureEnv) (config : Config) (browsers : Option String) :
    captureScreenshots env config browsers =
      (recognizedBrowsers browsers).flatMap (fun b =>
        (config.screenshots.filter (fun c => captureOk env c b)).map (fun c => mkShot c b)) := by
  unfold captureScreenshots recognizedBrowsers
  generalize parseBrowserList (browsers.getD "chromium") = bl
  induction bl with
  | nil => simp
  | cons hd tl ih =>
    have hfm : (fun c => captureScreenshot env c hd) =
        (fun c => if captureOk env c hd then some (mkShot c hd) else none) := by
      funext c; exact captureScreenshot_eq env c hd
    by_cases h : BROWSER_MAP.contains hd = true
    · simp only [List.flatMap_cons, List.filter_cons]
      rw [if_pos h, if_pos h, List.flatMap_cons, hfm, filterMap_if_eq, ih]
    · simp only [List.flatMap_cons, List.filter_cons]
      rw [if_neg h, if_neg h, ih]
      simp

/-! ## Concrete fixtures for witnesses and counterexamples -/

/-- An environment where every browser primitive succeeds. -/
def envAllOk : CaptureEnv :=
  ⟨fun _ _ => true, fun _ _ => true, fun _ _ => true, fun _ _ => true,
   fun _ _ => true, fun _ _ => true, fun _ _ => true⟩

/-- `envAllOk` except that navigation to the given URL times out. -/
def envFailUrl (u : String) : CaptureEnv :=
  { envAllOk with gotoOk := fun _ url => !(url == u) }

/-- `envAllOk` except that every 10s selector-visibility wait times out. -/
def envNoSelector : CaptureEnv :=
  { envAllOk with selectorVisible := fun _ _ => false }

/-- The default output settings of the repository. -/
def outputDefault : OutputConfig := ⟨"gh-screenshots", ⟨"default", "viewport"⟩⟩

/-- A minimal screenshot target with an explicit URL. -/
def tgtU (n u : String) : ScreenshotConfig :=
  { name := n, url := u, viewport := ⟨1440, 900, none⟩ }

/-- A minimal screenshot target at the default local URL. -/
def tgt (n : String) : ScreenshotConfig := tgtU n "http://localhost:3000/"

/-- A config holding the given targets. -/
def cfgOf (l : List ScreenshotConfig) : Config :=
  { version := 1, screenshots := l, output := outputDefault }

/-- A target with a `waitFor` selector set. -/
def tgtWait : ScreenshotConfig :=
  { name := "home", url := "http://localhost:3000/", viewport := ⟨1440, 900, none⟩,
    waitFor := some "#app" }

/-! ## C1: artifact count bound and (targetName, engineName) uniqueness -/

/-- C1 (counterexample): with two targets sharing the name "home" and a
single recognized engine, `captureScreenshots` returns two Artifacts with
the same `(targetName, engineName)` pair, so the uniqueness quantified over
duplicate-name target sets is false on the code. -/
theorem capture_pair_uniqueness_counterexample :
    ¬ (((captureScreenshots envAllOk (cfgOf [tgt "home", tgt "home"]) none).map
        (fun s => (s.name, s.browser))).Nodup) := by decide

/-- C1 (amended): for every environment, configuration and browsers option,
`captureScreenshots` returns at most N×M Artifacts (N targets, M recognized
engine identifiers), and — provided the target names are pairwise distinct
and the recognized engine list holds no duplicates — every returned
Artifact's (targetName, engineName) pair is unique. -/
theorem capture_artifact_bound_and_uniqueness (env : CaptureEnv) (config : Config)
    (browsers : Option String) :
    (captureScreenshots env config browsers).length ≤
      config.screenshots.length * (recognizedBrowsers browsers).length ∧
    ((config.screenshots.map (fun c => c.name)).Nodup →
      (recognizedBrowsers browsers).Nodup →
      ((captureScreenshots env config browsers).map (fun s => (s.name, s.browser))).Nodup) := by
  constructor
  · rw [captureScreenshots_eq, List.length_flatMap]
    refine le_trans (List.sum_le_card_nsmul _ config.screenshots.length ?_) ?_
    · intro x hx
      obtain ⟨b, _, rfl⟩ := List.mem_map.1 hx
      simp only [Function.comp_apply, List.length_map]
      exact List.length_filter_le _ _
    · simp [List.length_map, smul_eq_mul, Nat.mul_comm]
  · intro hn hbn
    rw [captureScreenshots_eq, List.map_flatMap]
    rw [List.nodup_flatMap]
    constructor
    · intro b _
      rw [List.map_map]
      have heq : ((fun s => (s.name, s.browser)) ∘ fun c => mkShot c b) =
          ((fun n => (n, b)) ∘ fun c : ScreenshotConfig => c.name) := by
        funext c; rfl
      rw [heq, ← List.map_map]
      refine List.Nodup.map ?_ ?_
      · intro x y hxy
        exact congrArg Prod.fst hxy
      · exact List.Nodup.sublist
          (List.Sublist.map _ (List.filter_sublist config.screenshots)) hn
    · refine List.Pairwise.imp ?_ hbn
      intro b1 b2 hne x hx1 hx2
      obtain ⟨s1, hs1, rfl⟩ := List.mem_map.1 hx1
      obtain ⟨c1, _, rfl⟩ := List.mem_map.1 hs1
      obtain ⟨s2, hs2, hx⟩ := List.mem_map.1 hx2
      obtain ⟨c2, _, rfl⟩ := List.mem_map.1 hs2
      have hb21 : b2 = b1 := congrArg Prod.snd hx
      exact hne hb21.symm

/-- C1 witness: the amended theorem applied to two distinctly-named targets
and the default single-engine browser list. -/
theorem capture_artifact_bound_and_uniqueness_witness :
    ((cfgOf [tgt "home", tgt "about"]).screenshots.map (fun c => c.name)).Nodup ∧
    (recognizedBrowsers none).Nodup ∧
    (captureScreenshots envAllOk (cfgOf [tgt "home", tgt "about"]) none).length ≤
      (cfgOf [tgt "home", tgt "about"]).screenshots.length * (recognizedBrowsers none).length ∧
    ((captureScreenshots envAllOk (cfgOf [tgt "home", tgt "about"]) none).map
      (fun s => (s.name, s.browser))).Nodup :=
  ⟨by decide, by decide,
   (capture_artifact_bound_and_uniqueness envAllOk (cfgOf [tgt "home", tgt "about"]) none).1,
   (capture_artifact_bound_and_uniqueness envAllOk (cfgOf [tgt "home", tgt "about"]) none).2
     (by decide) (by decide)⟩

/-! ## C2: per-pair failure isolation -/

/-- C2: a (target, engine) pair whose capture fails at any stage yields no
Artifact for that pair, while every other succeeding (target, engine) pair
still yields its Artifact — a failing target never aborts the run.  (Name
uniqueness is assumed so that "no Artifact for that pair" is well defined;
see C1 for what happens without it.) -/
theorem capture_partial_failure_isolation (env : CaptureEnv) (config : Config)
    (browsers : Option String) (t : ScreenshotConfig) (b : String)
    (ht : t ∈ config.screenshots)
    (hb : b ∈ recognizedBrowsers browsers)
    (hfail : captureOk env t b = false)
    (hnames : (config.screenshots.map (fun c => c.name)).Nodup) :
    (∀ a ∈ captureScreenshots env config browsers, ¬ (a.name = t.name ∧ a.browser = b)) ∧
    (∀ t' ∈ config.screenshots, ∀ b' ∈ recognizedBrowsers browsers,
      captureOk env t' b' = true →
        mkShot t' b' ∈ captureScreenshots env config browsers) := by
  constructor
  · intro a ha hcontra
    rw [captureScreenshots_eq] at ha
    obtain ⟨b'', _, ha⟩ := List.mem_flatMap.1 ha
    obtain ⟨c, hc, rfl⟩ := List.mem_map.1 ha
    obtain ⟨hcmem, hcok⟩ := List.mem_filter.1 hc
    have hbrow : b'' = b := hcontra.2
    have hname : c.name = t.name := hcontra.1
    have hct : c = t := List.inj_on_of_nodup_map hnames hcmem ht hname
    rw [hct, hbrow] at hcok
    rw [hfail] at hcok
    exact Bool.false_ne_true hcok
  · intro t' ht' b' hb' hok
    rw [captureScreenshots_eq]
    exact List.mem_flatMap.2 ⟨b', hb',
      List.mem_map.2 ⟨t', List.mem_filter.2 ⟨ht', hok⟩, rfl⟩⟩

/-- C2 witness: a run where navigation for the "home" target times out while
the "about" target succeeds, applied to the isolation theorem. -/
theorem capture_partial_failure_isolation_witness :
    tgtU "home" "http://fail/" ∈ (cfgOf [tgtU "home" "http://fail/", tgt "about"]).screenshots ∧
    "chromium" ∈ recognizedBrowsers none ∧
    captureOk (envFailUrl "http://fail/") (tgtU "home" "http://fail/") "chromium" = false ∧
    ((cfgOf [tgtU "home" "http://fail/", tgt "about"]).screenshots.map
      (fun c => c.name)).Nodup ∧
    ((∀ a ∈ captureScreenshots (envFailUrl "http://fail/")
          (cfgOf [tgtU "home" "http://fail/", tgt "about"]) none,
        ¬ (a.name = (tgtU "home" "http://fail/").name ∧ a.browser = "chromium")) ∧
      (∀ t' ∈ (cfgOf [tgtU "home" "http://fail/", tgt "about"]).screenshots,
        ∀ b' ∈ recognizedBrowsers none,
          captureOk (envFailUrl "http://fail/") t' b' = true →
            mkShot t' b' ∈ captureScreenshots (envFailUrl "http://fail/")
              (cfgOf [tgtU "home" "http://fail/", tgt "about"]) none)) :=
  ⟨by decide, by decide, by decide, by decide,
   capture_partial_failure_isolation (envFailUrl "http://fail/")
     (cfgOf [tgtU "home" "http://fail/", tgt "about"]) none
     (tgtU "home" "http://fail/") "chromium"
     (by decide) (by decide) (by decide) (by decide)⟩

/-! ## C7: waitSelector timeout is swallowed -/

/-- C7: for a target with `waitFor` set, a timeout of the 10-second
selector-visibility wait alone never fails the (engine, target) pair — when
context creation, navigation, steps and the screenshot succeed, the capture
still yields its Artifact even though the selector never became visible. -/
theorem capture_waitfor_timeout_swallowed (env : CaptureEnv) (c : ScreenshotConfig)
    (b : String)
    (hsel : strTruthy c.waitFor = true)
    (htimeout : env.selectorVisible b (c.waitFor.getD "") = false)
    (hctx : env.newContextOk b c.viewport = true)
    (hgoto : env.gotoOk b c.url = true)
    (hsteps : stepsPhaseOk env b c = true)
    (hshot : env.screenshotOk b (screenshotFilepath c b) = true) :
    captureScreenshot env c b = some (mkShot c b) := by
  unfold captureScreenshot mkShot
  simp [hctx, hgoto, hsteps, hshot]

/-- C7 witness: a target with a `waitFor` selector captured in an
environment where every visibility wait times out. -/
theorem capture_waitfor_timeout_swallowed_witness :
    strTruthy tgtWait.waitFor = true ∧
    envNoSelector.selectorVisible "chromium" (tgtWait.waitFor.getD "") = false ∧
    envNoSelector.newContextOk "chromium" tgtWait.viewport = true ∧
    envNoSelector.gotoOk "chromium" tgtWait.url = true ∧
    stepsPhaseOk envNoSelector "chromium" tgtWait = true ∧
    envNoSelector.screenshotOk "chromium" (screenshotFilepath tgtWait "chromium") = true ∧
    captureScreenshot envNoSelector tgtWait "chromium" = some (mkShot tgtWait "chromium") :=
  ⟨by decide, by decide, by decide, by decide, by decide, by decide,
   capture_waitfor_timeout_swallowed envNoSelector tgtWait "chromium"
     (by decide) (by decide) (by decide) (by decide) (by decide) (by decide)⟩

/-! ## C10: normalizeViewport -/

/-- C10 (counterexample): the empty string is a string other than the four
presets, yet `normalizeViewport` returns the default viewport for it instead
of throwing, because `if (!viewport)` also catches the falsy `""`. -/
theorem normalizeViewport_empty_string_counterexample :
    normalizeViewport (some (.str "")) = .ok ⟨1440, 900, none⟩ ∧
    normalizeViewport (some (.str "")) ≠ .error (unknownViewportMsg "") := by
  constructor
  · decide
  · decide

/-- C10 (amended): a missing viewport — and, by JavaScript truthiness, the
empty string — yields the 1440×900 default; the four presets are matched
case-insensitively, only "mobile" setting a deviceScaleFactor; any other
nonempty string throws the Unknown-viewport-preset error; an object is
passed through with exactly its width, height and deviceScaleFactor. -/
theorem normalizeViewport_spec :
    normalizeViewport none = .ok ⟨1440, 900, none⟩ ∧
    normalizeViewport (some (.str "")) = .ok ⟨1440, 900, none⟩ ∧
    (∀ s : String, s ≠ "" → jsToLower s = "desktop" →
      normalizeViewport (some (.str s)) = .ok ⟨1440, 900, none⟩) ∧
    (∀ s : String, s ≠ "" → jsToLower s = "laptop" →
      normalizeViewport (some (.str s)) = .ok ⟨1366, 768, none⟩) ∧
    (∀ s : String, s ≠ "" → jsToLower s = "tablet" →
      normalizeViewport (some (.str s)) = .ok ⟨768, 1024, none⟩) ∧
    (∀ s : String, s ≠ "" → jsToLower s = "mobile" →
      normalizeViewport (some (.str s)) = .ok ⟨390, 844, some 3⟩) ∧
    (∀ s : String, s ≠ "" → jsToLower s ≠ "desktop" → jsToLower s ≠ "laptop" →
      jsToLower s ≠ "tablet" → jsToLower s ≠ "mobile" →
      normalizeViewport (some (.str s)) = .error (unknownViewportMsg s)) ∧
    (∀ v : Viewport, normalizeViewport (some (.obj v)) =
      .ok ⟨v.width, v.height, v.deviceScaleFactor⟩) := by
  refine ⟨by decide, by decide, ?_, ?_, ?_, ?_, ?_, ?_⟩
  · intro s hne h; simp [normalizeViewport, hne, h]
  · intro s hne h; simp [normalizeViewport, hne, h]
  · intro s hne h; simp [normalizeViewport, hne, h]
  · intro s hne h; simp [normalizeViewport, hne, h]
  · intro s hne h1 h2 h3 h4; simp [normalizeViewport, hne, h1, h2, h3, h4]
  · intro v; rfl

/-- C10 witness: the preset cases evaluated at "DESKTOP" (case-insensitive
match) and an unknown preset "4k". -/
theorem normalizeViewport_spec_witness :
    ("DESKTOP" ≠ "" ∧ jsToLower "DESKTOP" = "desktop") ∧
    normalizeViewport (some (.str "DESKTOP")) = .ok ⟨1440, 900, none⟩ ∧
    normalizeViewport (some (.str "4k")) = .error (unknownViewportMsg "4k") :=
  ⟨⟨by decide, by decide⟩,
   normalizeViewport_spec.2.2.1 "DESKTOP" (by decide) (by decide),
   normalizeViewport_spec.2.2.2.2.2.2.1 "4k" (by decide) (by decide) (by decide)
     (by decide) (by decide)⟩

/-! ## C9: applyActionOverrides frame property -/

/-- C9: applying a (truthy) URL override replaces exactly the `url` field of
every screenshot with the override value; every other screenshot field, the
version, the skip settings and the comment settings are unchanged, and the
output is unchanged too unless a (truthy) branch override replaces exactly
`output.branch`. -/
theorem applyActionOverrides_frame (config : Config) (overrides : ActionOverrides)
    (hurl : strTruthy overrides.url = true) :
    (applyActionOverrides config overrides).version = config.version ∧
    (applyActionOverrides config overrides).skip = config.skip ∧
    (applyActionOverrides config overrides).output.comment = config.output.comment ∧
    (strTruthy overrides.branch = false →
      (applyActionOverrides config overrides).output = config.output) ∧
    (strTruthy overrides.branch = true →
      (applyActionOverrides config overrides).output.branch = overrides.branch.getD "") ∧
    (applyActionOverrides config overrides).screenshots.length =
      config.screenshots.length ∧
    (∀ i : Nat, ((applyActionOverrides config overrides).screenshots[i]?).map
        (fun s => s.url) =
      (config.screenshots[i]?).map (fun _ => overrides.url.getD "")) ∧
    (∀ i : Nat, ((applyActionOverrides config overrides).screenshots[i]?).map
        (fun s => (s.name, s.viewport, s.fullPage, s.waitFor, s.wait, s.steps)) =
      (config.screenshots[i]?).map
        (fun s => (s.name, s.viewport, s.fullPage, s.waitFor, s.wait, s.steps))) := by
  have hq : applyActionOverrides config overrides =
      { config with
        screenshots :=
          config.screenshots.map (fun s => { s with url := overrides.url.getD "" }),
        output :=
          if strTruthy overrides.branch then
            { config.output with branch := overrides.branch.getD "" }
          else config.output } := by
    unfold applyActionOverrides
    dsimp only
    rw [if_pos hurl]
    by_cases hb : strTruthy overrides.branch = true
    · rw [if_pos hb, if_pos hb]
    · rw [if_neg hb, if_neg hb]
  rw [hq]
  refine ⟨rfl, rfl, ?_, ?_, ?_, by simp, ?_, ?_⟩
  · cases hb : strTruthy overrides.branch <;> simp [hb]
  · intro h; simp [h]
  · intro h; simp [h]
  · intro i
    simp only [List.getElem?_map]
    cases config.screenshots[i]? <;> rfl
  · intro i
    simp only [List.getElem?_map]
    cases config.screenshots[i]? <;> rfl

/-- C9 witness: the frame property at a concrete config with both overrides
set. -/
theorem applyActionOverrides_frame_witness :
    strTruthy (ActionOverrides.mk (some "http://preview/") (some "shots")).url = true ∧
    (applyActionOverrides (cfgOf [tgtWait, tgt "about"])
        (ActionOverrides.mk (some "http://preview/") (some "shots"))).screenshots.map
      (fun s => (s.name, s.url, s.waitFor)) =
      [("home", "http://preview/", some "#app"), ("about", "http://preview/", none)] ∧
    (applyActionOverrides (cfgOf [tgtWait, tgt "about"])
        (ActionOverrides.mk (some "http://preview/") (some "shots"))).output.branch = "shots" ∧
    (applyActionOverrides (cfgOf [tgtWait, tgt "about"])
        (ActionOverrides.mk (some "http://preview/") (some "shots"))).version =
      (cfgOf [tgtWait, tgt "about"]).version :=
  ⟨by decide, by decide, by decide,
   (applyActionOverrides_frame (cfgOf [tgtWait, tgt "about"])
     (ActionOverrides.mk (some "http://preview/") (some "shots")) (by decide)).1⟩

/-! ## C4: every rendered comment body carries the fixed marker token -/

theorem generateCommentBody_has_marker (shots : List UploadedScreenshot) (att : Bool) :
    screenshotsMarker.data <+: (generateCommentBody shots att).data := by
  unfold generateCommentBody
  refine ⟨("\n" ++ commentHeader ++ "\n" ++
    String.intercalate "\n"
      (shots.map (fun s => "- " ++ s.name ++ " (" ++ s.browser ++ "): " ++ s.url)) ++
    (if att then "\n\n*Generated by auto-pr-screenshots*" else "")).data, ?_⟩
  simp [String.data_append]

/-- C4: every comment body produced by the renderer contains the same fixed
hidden marker token, whatever PublishedArtifact batch it was rendered from
— two renders for the same PR share the marker, and the marker scan of
cleanup.ts recognizes both bodies, so a later run can locate and replace
the prior comment. -/
theorem comment_marker_shared (b1 b2 : List UploadedScreenshot) (a1 a2 : Bool) :
    screenshotsMarker.data <:+: (generateCommentBody b1 a1).data ∧
    screenshotsMarker.data <:+: (generateCommentBody b2 a2).data ∧
    isScreenshotComment (generateCommentBody b1 a1) = true ∧
    isScreenshotComment (generateCommentBody b2 a2) = true := by
  have k1 := List.IsPrefix.isInfix (generateCommentBody_has_marker b1 a1)
  have k2 := List.IsPrefix.isInfix (generateCommentBody_has_marker b2 a2)
  refine ⟨k1, k2, ?_, ?_⟩
  · unfold isScreenshotComment
    rw [Bool.or_eq_true]
    exact Or.inl (decide_eq_true k1)
  · unfold isScreenshotComment
    rw [Bool.or_eq_true]
    exact Or.inl (decide_eq_true k2)

/-! ## C8: the zero-artifact condition and the fail-on-error policy flag -/

/-- C8: when zero Artifacts were captured, `run` reaches a distinct
condition before any upload: no Git API request is issued and no comment is
posted; with `fail-on-error` the run fails with the dedicated message,
without it the run returns early.  A nonempty capture never takes the
early-return path — partial failure is a different condition. -/
theorem run_zero_screenshots_policy (api : GitApi) (opts : UploadOptions)
    (failOnError skipComment eventIsPullRequest : Bool) :
    runAfterCapture api opts failOnError skipComment eventIsPullRequest [] =
      ((if failOnError then .failedRun noScreenshotsMessage else .earlyReturn), []) ∧
    (∀ shots : List CapturedScreenshot, shots ≠ [] →
      (runAfterCapture api opts failOnError skipComment eventIsPullRequest shots).1 ≠
        .earlyReturn) := by
  constructor
  · unfold runAfterCapture
    cases failOnError <;> simp
  · intro shots hne
    unfold runAfterCapture
    have hlen : ¬ shots.length = 0 := by
      simpa [List.length_eq_zero] using hne
    rw [if_neg hlen]
    rcases h : uploadScreenshots api shots opts [] with ⟨tr, res⟩
    cases res with
    | ok uploaded => simp
    | error e => cases failOnError <;> simp

/-- C8 witness: the policy equation for both flag values, and the
non-early-return of a nonempty capture, at concrete inputs. -/
theorem run_zero_screenshots_policy_witness :
    runAfterCapture (GitApi.mk (fun _ => .ok "s") (fun _ => .ok "bytes"))
        (UploadOptions.mk "b" (GhContext.mk "o" "r" (some 7) 42) "T" "G")
        true false false [] = (.failedRun noScreenshotsMessage, []) ∧
    runAfterCapture (GitApi.mk (fun _ => .ok "s") (fun _ => .ok "bytes"))
        (UploadOptions.mk "b" (GhContext.mk "o" "r" (some 7) 42) "T" "G")
        false false false [] = (.earlyReturn, []) ∧
    ([⟨"home", "chromium", "screenshots/home-chromium.png"⟩] ≠
      ([] : List CapturedScreenshot)) ∧
    (runAfterCapture (GitApi.mk (fun _ => .ok "s") (fun _ => .ok "bytes"))
        (UploadOptions.mk "b" (GhContext.mk "o" "r" (some 7) 42) "T" "G")
        false false false
        [⟨"home", "chromium", "screenshots/home-chromium.png"⟩]).1 ≠ .earlyReturn :=
  ⟨(run_zero_screenshots_policy (GitApi.mk (fun _ => .ok "s") (fun _ => .ok "bytes"))
      (UploadOptions.mk "b" (GhContext.mk "o" "r" (some 7) 42) "T" "G")
      true false false).1,
   (run_zero_screenshots_policy (GitApi.mk (fun _ => .ok "s") (fun _ => .ok "bytes"))
      (UploadOptions.mk "b" (GhContext.mk "o" "r" (some 7) 42) "T" "G")
      false false false).1,
   by decide,
   (run_zero_screenshots_policy (GitApi.mk (fun _ => .ok "s") (fun _ => .ok "bytes"))
      (UploadOptions.mk "b" (GhContext.mk "o" "r" (some 7) 42) "T" "G")
      false false false).2
     [⟨"home", "chromium", "screenshots/home-chromium.png"⟩] (by decide)⟩

/-! ## Upload protocol lemmas -/

/-- Requests of the branch-resolution phase (no object is created by them
except the branch ref itself). -/
def isSetupOp : GitOp → Bool
  | .getBranch _ => true
  | .getRepo => true
  | .getRef _ => true
  | .createRef _ _ => true
  | .getCommit _ => true
  | _ => false

def isCreateBlob : GitOp → Bool
  | .createBlob _ => true
  | _ => false

def isCreateTree : GitOp → Bool
  | .createTree _ _ => true
  | _ => false

def isCreateCommit : GitOp → Bool
  | .createCommit _ _ _ => true
  | _ => false

def isUpdateRef : GitOp → Bool
  | .updateRef _ _ => true
  | _ => false

theorem uploadM_bind_ok {α β : Type} {x : UploadM α} {f : α → UploadM β}
    {tr tr' : List GitOp} {a : α} (h : x tr = (tr', .ok a)) :
    (x >>= f) tr = f a tr' := by
  show (match x tr with
    | (tr', .ok a) => f a tr'
    | (tr', .error e) => (tr', .error e)) = f a tr'
  rw [h]

theorem uploadM_bind_err {α β : Type} {x : UploadM α} {f : α → UploadM β}
    {tr tr' : List GitOp} {e : GitErr} (h : x tr = (tr', .error e)) :
    (x >>= f) tr = (tr', .error e) := by
  show (match x tr with
    | (tr', .ok a) => f a tr'
    | (tr', .error e) => (tr', .error e)) = (tr', .error e)
  rw [h]

/-- The value carried by a successful octokit/readFile response. -/
def exValue : Except GitErr String → String
  | .ok v => v
  | .error _ => ""

/-- The bytes read for one screenshot (defined when `readFile` succeeds). -/
def contentOf (api : GitApi) (s : CapturedScreenshot) : String :=
  exValue (api.readFile s.path)

/-- The blob sha created for one screenshot (defined when both calls succeed). -/
def blobShaOf (api : GitApi) (s : CapturedScreenshot) : String :=
  exValue (api.respond (.createBlob (contentOf api s)))

/-- The tree entries of a fully successful upload. -/
def uploadEntries (api : GitApi) (opts : UploadOptions) (shots : List CapturedScreenshot) :
    List (String × String) :=
  shots.map (fun s => (screenshotDirOf opts ++ "/" ++ basename s.path, blobShaOf api s)) ++
    [(screenshotDirOf opts ++ "/README.md",
      exValue (api.respond
        (.createBlob (readmeContent (prNum opts.ctx) opts.generatedOn shots)))),
     ("pr-" ++ toString (prNum opts.ctx) ++ "/latest",
      exValue (api.respond (.createBlob opts.timestamp)))]

/-- Branch resolution only performs setup requests, appends them to the
trace, and only fails with an error some API call returned. -/
theorem resolveBaseSha_shape (api : GitApi) (b : String) (tr : List GitOp) :
    ∃ ext res, resolveBaseSha api b tr = (tr ++ ext, res) ∧
      (∀ op ∈ ext, isSetupOp op = true) ∧
      (∀ e, res = .error e → ∃ op, api.respond op = .error e) := by
  cases hgb : api.respond (.getBranch b) with
  | ok v =>
    refine ⟨[.getBranch b, .getRef ("heads/" ++ b)],
      api.respond (.getRef ("heads/" ++ b)), ?_, ?_, ?_⟩
    · simp [resolveBaseSha, checkBranchExists, callApi, uploadM_bind_def, hgb]
    · simp [isSetupOp]
    · intro e he
      exact ⟨.getRef ("heads/" ++ b), he⟩
  | error e0 =>
    by_cases h404 : e0.status = 404
    · cases hrepo : api.respond .getRepo with
      | error e2 =>
        refine ⟨[.getBranch b, .getRepo], .error e2, ?_, ?_, ?_⟩
        · simp [resolveBaseSha, checkBranchExists, callApi, uploadM_bind_def, hgb, h404, hrepo]
        · simp [isSetupOp]
        · intro e he
          exact ⟨.getRepo, by rw [hrepo, he]⟩
      | ok db =>
        cases href : api.respond (.getRef ("heads/" ++ db)) with
        | error e3 =>
          refine ⟨[.getBranch b, .getRepo, .getRef ("heads/" ++ db)], .error e3, ?_, ?_, ?_⟩
          · simp [resolveBaseSha, checkBranchExists, callApi, uploadM_bind_def,
              hgb, h404, hrepo, href]
          · simp [isSetupOp]
          · intro e he
            exact ⟨.getRef ("heads/" ++ db), by rw [href, he]⟩
        | ok sha =>
          cases hcr : api.respond (.createRef ("refs/heads/" ++ b) sha) with
          | error e4 =>
            refine ⟨[.getBranch b, .getRepo, .getRef ("heads/" ++ db),
              .createRef ("refs/heads/" ++ b) sha], .error e4, ?_, ?_, ?_⟩
            · simp [resolveBaseSha, checkBranchExists, callApi, uploadM_bind_def,
                hgb, h404, hrepo, href, hcr]
            · simp [isSetupOp]
            · intro e he
              exact ⟨.createRef ("refs/heads/" ++ b) sha, by rw [hcr, he]⟩
          | ok _ =>
            refine ⟨[.getBranch b, .getRepo, .getRef ("heads/" ++ db),
              .createRef ("refs/heads/" ++ b) sha], .ok sha, ?_, ?_, ?_⟩
            · simp [resolveBaseSha, checkBranchExists, callApi, uploadM_bind_def,
                uploadM_pure_def, hgb, h404, hrepo, href, hcr]
            · simp [isSetupOp]
            · intro e he
              exact absurd he (by simp)
    · refine ⟨[.getBranch b], .error e0, ?_, ?_, ?_⟩
      · simp [resolveBaseSha, checkBranchExists, callApi, uploadM_bind_def, hgb, h404]
      · simp [isSetupOp]
      · intro e he
        refine ⟨.getBranch b, ?_⟩
        rw [hgb]
        cases he
        rfl

/-- The upload loop only issues `createBlob` requests, at most one per
screenshot, and only fails with an error some API/readFile call returned. -/
theorem uploadEach_shape (api : GitApi) (opts : UploadOptions) (dir : String)
    (l : List CapturedScreenshot) : ∀ tr, ∃ ext res,
    uploadEach api opts dir l tr = (tr ++ ext, res) ∧
      (∀ op ∈ ext, isCreateBlob op = true) ∧
      ext.length ≤ l.length ∧
      (∀ e, res = .error e →
        (∃ op, api.respond op = .error e) ∨ ∃ p, api.readFile p = .error e) := by
  induction l with
  | nil =>
    intro tr
    refine ⟨[], .ok ([], []), ?_, ?_, ?_, ?_⟩
    · simp [uploadEach, uploadM_pure_def]
    · simp
    · simp
    · intro e he; exact absurd he (by simp)
  | cons s rest ih =>
    intro tr
    cases hrf : api.readFile s.path with
    | error e1 =>
      refine ⟨[], .error e1, ?_, ?_, ?_, ?_⟩
      · simp [uploadEach, readFileM, uploadM_bind_def, hrf]
      · simp
      · simp
      · intro e he
        refine Or.inr ⟨s.path, ?_⟩
        rw [hrf]
        cases he
        rfl
    | ok content =>
      cases hcb : api.respond (.createBlob content) with
      | error e2 =>
        refine ⟨[.createBlob content], .error e2, ?_, ?_, ?_, ?_⟩
        · simp [uploadEach, readFileM, callApi, uploadM_bind_def, hrf, hcb]
        · simp [isCreateBlob]
        · simp
        · intro e he
          refine Or.inl ⟨.createBlob content, ?_⟩
          rw [hcb]
          cases he
          rfl
      | ok sha =>
        obtain ⟨ext', res', heq', hall', hlen', herr'⟩ := ih (tr ++ [GitOp.createBlob content])
        cases res' with
        | error e3 =>
          refine ⟨GitOp.createBlob content :: ext', .error e3, ?_, ?_, ?_, ?_⟩
          · simp only [uploadEach, readFileM, callApi, uploadM_bind_def, hrf, hcb]
            rw [heq']
            simp
          · intro op hop
            rcases List.mem_cons.1 hop with rfl | hop2
            · rfl
            · exact hall' op hop2
          · simpa using hlen'
          · intro e he
            cases he
            exact herr' e3 rfl
        | ok pr =>
          obtain ⟨blobs, ups⟩ := pr
          refine ⟨GitOp.createBlob content :: ext',
            .ok ((dir ++ "/" ++ basename s.path, sha) :: blobs,
              mkUploaded opts dir s :: ups), ?_, ?_, ?_, ?_⟩
          · simp only [uploadEach, readFileM, callApi, uploadM_bind_def,
              uploadM_pure_def, hrf, hcb]
            rw [heq']
            simp
          · intro op hop
            rcases List.mem_cons.1 hop with rfl | hop2
            · rfl
            · exact hall' op hop2
          · simpa using hlen'
          · intro e he; exact absurd he (by simp)

/-- Characterization of a fully successful upload loop: the trace gains one
blob request per screenshot, in order, and the returned lists are the
expected per-screenshot tree entries and published artifacts. -/
theorem uploadEach_ok (api : GitApi) (opts : UploadOptions) (dir : String)
    (l : List CapturedScreenshot) : ∀ tr tr' blobs ups,
    uploadEach api opts dir l tr = (tr', .ok (blobs, ups)) →
    tr' = tr ++ l.map (fun s => GitOp.createBlob (contentOf api s)) ∧
    blobs = l.map (fun s => (dir ++ "/" ++ basename s.path, blobShaOf api s)) ∧
    ups = l.map (mkUploaded opts dir) := by
  induction l with
  | nil =>
    intro tr tr' blobs ups h
    simp [uploadEach, uploadM_pure_def] at h
    obtain ⟨h1, h2, h3⟩ := h
    simp [h1, h2, h3]
  | cons s rest ih =>
    intro tr tr' blobs ups h
    cases hrf : api.readFile s.path with
    | error e1 =>
      rw [show uploadEach api opts dir (s :: rest) tr = (tr, .error e1) by
        simp [uploadEach, readFileM, uploadM_bind_def, hrf]] at h
      exact absurd h (by simp)
    | ok content =>
      cases hcb : api.respond (.createBlob content) with
      | error e2 =>
        rw [show uploadEach api opts dir (s :: rest) tr =
            (tr ++ [GitOp.createBlob content], .error e2) by
          simp [uploadEach, readFileM, callApi, uploadM_bind_def, hrf, hcb]] at h
        exact absurd h (by simp)
      | ok sha =>
        rcases hrec : uploadEach api opts dir rest (tr ++ [GitOp.createBlob content])
          with ⟨tr2, res2⟩
        cases res2 with
        | error e3 =>
          rw [show uploadEach api opts dir (s :: rest) tr = (tr2, .error e3) by
            simp only [uploadEach, readFileM, callApi, uploadM_bind_def, hrf, hcb]
            rw [hrec]] at h
          exact absurd h (by simp)
        | ok pr =>
          obtain ⟨blobs2, ups2⟩ := pr
          rw [show uploadEach api opts dir (s :: rest) tr =
              (tr2, .ok ((dir ++ "/" ++ basename s.path, sha) :: blobs2,
                mkUploaded opts dir s :: ups2)) by
            simp only [uploadEach, readFileM, callApi, uploadM_bind_def,
              uploadM_pure_def, hrf, hcb]
            rw [hrec]] at h
          obtain ⟨h1, h2, h3⟩ : tr2 = tr' ∧
              (dir ++ "/" ++ basename s.path, sha) :: blobs2 = blobs ∧
              mkUploaded opts dir s :: ups2 = ups := by
            have := Prod.mk.injEq .. ▸ h
            simp at h
            exact ⟨h.1, h.2.1, h.2.2⟩
          obtain ⟨g1, g2, g3⟩ := ih (tr ++ [GitOp.createBlob content]) tr2 blobs2 ups2 hrec
          have hcof : contentOf api s = content := by
            simp [contentOf, hrf, exValue]
          have hsof : blobShaOf api s = sha := by
            simp [blobShaOf, hcof, hcb, exValue]
          refine ⟨?_, ?_, ?_⟩
          · rw [← h1, g1]
            simp [hcof]
          · rw [← h2, g2]
            simp [hsof]
          · rw [← h3, g3]
            simp

/-- Characterization of a successful upload: the published list is exactly
one entry per input Artifact with its deterministic URL, and the trace is
setup requests, the base-commit read, one blob per artifact, the two
synthesized blobs, the tree, the commit, and — last — the ref update. -/
theorem uploadScreenshots_ok (api : GitApi) (shots : List CapturedScreenshot)
    (opts : UploadOptions) (tr tr' : List GitOp) (ups : List UploadedScreenshot)
    (h : uploadScreenshots api shots opts tr = (tr', .ok ups)) :
    ups = shots.map (mkUploaded opts (screenshotDirOf opts)) ∧
    ∃ pre bsha bt tsha csha,
      (∀ op ∈ pre, isSetupOp op = true) ∧
      tr' = tr ++ pre ++ [GitOp.getCommit bsha] ++
        shots.map (fun s => GitOp.createBlob (contentOf api s)) ++
        [GitOp.createBlob (readmeContent (prNum opts.ctx) opts.generatedOn shots),
         GitOp.createBlob opts.timestamp,
         GitOp.createTree bt (uploadEntries api opts shots),
         GitOp.createCommit (commitMessage opts) tsha [bsha],
         GitOp.updateRef ("heads/" ++ opts.branch) csha] := by
  obtain ⟨ext1, res1, heq1, hall1, _⟩ := resolveBaseSha_shape api opts.branch tr
  unfold uploadScreenshots at h
  try dsimp only at h
  cases res1 with
  | error e =>
    rw [uploadM_bind_err heq1] at h
    exact absurd h (by simp)
  | ok bsha =>
    rw [uploadM_bind_ok heq1] at h
    try dsimp only at h
    cases hgc : api.respond (.getCommit bsha) with
    | error e =>
      have hc : callApi api (.getCommit bsha) (tr ++ ext1) =
          (tr ++ ext1 ++ [GitOp.getCommit bsha], .error e) := by simp [callApi, hgc]
      rw [uploadM_bind_err hc] at h
      exact absurd h (by simp)
    | ok bt =>
      have hc : callApi api (.getCommit bsha) (tr ++ ext1) =
          (tr ++ ext1 ++ [GitOp.getCommit bsha], .ok bt) := by simp [callApi, hgc]
      rw [uploadM_bind_ok hc] at h
      try dsimp only at h
      rcases hloop : uploadEach api opts (screenshotDirOf opts) shots
          (tr ++ ext1 ++ [GitOp.getCommit bsha]) with ⟨tr3, res3⟩
      cases res3 with
      | error e =>
        rw [uploadM_bind_err hloop] at h
        exact absurd h (by simp)
      | ok p =>
        obtain ⟨blobs, ups2⟩ := p
        rw [uploadM_bind_ok hloop] at h
        try dsimp only at h
        obtain ⟨g1, g2, g3⟩ := uploadEach_ok api opts (screenshotDirOf opts) shots _ _ _ _ hloop
        cases hrb : api.respond
            (.createBlob (readmeContent (prNum opts.ctx) opts.generatedOn shots)) with
        | error e =>
          have hcr : callApi api
              (.createBlob (readmeContent (prNum opts.ctx) opts.generatedOn shots)) tr3 =
              (tr3 ++ [GitOp.createBlob
                (readmeContent (prNum opts.ctx) opts.generatedOn shots)], .error e) := by
            simp [callApi, hrb]
          rw [uploadM_bind_err hcr] at h
          exact absurd h (by simp)
        | ok rsha =>
          have hcr : callApi api
              (.createBlob (readmeContent (prNum opts.ctx) opts.generatedOn shots)) tr3 =
              (tr3 ++ [GitOp.createBlob
                (readmeContent (prNum opts.ctx) opts.generatedOn shots)], .ok rsha) := by
            simp [callApi, hrb]
          rw [uploadM_bind_ok hcr] at h
          try dsimp only at h
          cases hlb : api.respond (.createBlob opts.timestamp) with
          | error e =>
            have hcl : callApi api (.createBlob opts.timestamp)
                (tr3 ++ [GitOp.createBlob
                  (readmeContent (prNum opts.ctx) opts.generatedOn shots)]) =
                (tr3 ++ [GitOp.createBlob
                  (readmeContent (prNum opts.ctx) opts.generatedOn shots)] ++
                  [GitOp.createBlob opts.timestamp], .error e) := by
              simp [callApi, hlb]
            rw [uploadM_bind_err hcl] at h
            exact absurd h (by simp)
          | ok lsha =>
            have hcl : callApi api (.createBlob opts.timestamp)
                (tr3 ++ [GitOp.createBlob
                  (readmeContent (prNum opts.ctx) opts.generatedOn shots)]) =
                (tr3 ++ [GitOp.createBlob
                  (readmeContent (prNum opts.ctx) opts.generatedOn shots)] ++
                  [GitOp.createBlob opts.timestamp], .ok lsha) := by
              simp [callApi, hlb]
            rw [uploadM_bind_ok hcl] at h
            try dsimp only at h
            have hent : blobs ++
                [(screenshotDirOf opts ++ "/README.md", rsha),
                 ("pr-" ++ toString (prNum opts.ctx) ++ "/latest", lsha)] =
                uploadEntries api opts shots := by
              rw [g2]
              simp [uploadEntries, hrb, hlb, exValue]
            rw [hent] at h
            cases htr : api.respond (.createTree bt (uploadEntries api opts shots)) with
            | error e =>
              have hct : callApi api (.createTree bt (uploadEntries api opts shots))
                  (tr3 ++ [GitOp.createBlob
                    (readmeContent (prNum opts.ctx) opts.generatedOn shots)] ++
                    [GitOp.createBlob opts.timestamp]) =
                  (tr3 ++ [GitOp.createBlob
                    (readmeContent (prNum opts.ctx) opts.generatedOn shots)] ++
                    [GitOp.createBlob opts.timestamp] ++
                    [GitOp.createTree bt (uploadEntries api opts shots)], .error e) := by
                simp [callApi, htr]
              rw [uploadM_bind_err hct] at h
              exact absurd h (by simp)
            | ok tsha =>
              have hct : callApi api (.createTree bt (uploadEntries api opts shots))
                  (tr3 ++ [GitOp.createBlob
                    (readmeContent (prNum opts.ctx) opts.generatedOn shots)] ++
                    [GitOp.createBlob opts.timestamp]) =
                  (tr3 ++ [GitOp.createBlob
                    (readmeContent (prNum opts.ctx) opts.generatedOn shots)] ++
                    [GitOp.createBlob opts.timestamp] ++
                    [GitOp.createTree bt (uploadEntries api opts shots)], .ok tsha) := by
                simp [callApi, htr]
              rw [uploadM_bind_ok hct] at h
              try dsimp only at h
              cases hcm : api.respond (.createCommit (commitMessage opts) tsha [bsha]) with
              | error e =>
                have hcc : callApi api (.createCommit (commitMessage opts) tsha [bsha])
                    (tr3 ++ [GitOp.createBlob
                      (readmeContent (prNum opts.ctx) opts.generatedOn shots)] ++
                      [GitOp.createBlob opts.timestamp] ++
                      [GitOp.createTree bt (uploadEntries api opts shots)]) =
                    (tr3 ++ [GitOp.createBlob
                      (readmeContent (prNum opts.ctx) opts.generatedOn shots)] ++
                      [GitOp.createBlob opts.timestamp] ++
                      [GitOp.createTree bt (uploadEntries api opts shots)] ++
                      [GitOp.createCommit (commitMessage opts) tsha [bsha]], .error e) := by
                  simp [callApi, hcm]
                rw [uploadM_bind_err hcc] at h
                exact absurd h (by simp)
              | ok csha =>
                have hcc : callApi api (.createCommit (commitMessage opts) tsha [bsha])
                    (tr3 ++ [GitOp.createBlob
                      (readmeContent (prNum opts.ctx) opts.generatedOn shots)] ++
                      [GitOp.createBlob opts.timestamp] ++
                      [GitOp.createTree bt (uploadEntries api opts shots)]) =
                    (tr3 ++ [GitOp.createBlob
                      (readmeContent (prNum opts.ctx) opts.generatedOn shots)] ++
                      [GitOp.createBlob opts.timestamp] ++
                      [GitOp.createTree bt (uploadEntries api opts shots)] ++
                      [GitOp.createCommit (commitMessage opts) tsha [bsha]], .ok csha) := by
                  simp [callApi, hcm]
                rw [uploadM_bind_ok hcc] at h
                try dsimp only at h
                cases hur : api.respond (.updateRef ("heads/" ++ opts.branch) csha) with
                | error e =>
                  have hcu : callApi api (.updateRef ("heads/" ++ opts.branch) csha)
                      (tr3 ++ [GitOp.createBlob
                        (readmeContent (prNum opts.ctx) opts.generatedOn shots)] ++
                        [GitOp.createBlob opts.timestamp] ++
                        [GitOp.createTree bt (uploadEntries api opts shots)] ++
                        [GitOp.createCommit (commitMessage opts) tsha [bsha]]) =
                      (tr3 ++ [GitOp.createBlob
                        (readmeContent (prNum opts.ctx) opts.generatedOn shots)] ++
                        [GitOp.createBlob opts.timestamp] ++
                        [GitOp.createTree bt (uploadEntries api opts shots)] ++
                        [GitOp.createCommit (commitMessage opts) tsha [bsha]] ++
                        [GitOp.updateRef ("heads/" ++ opts.branch) csha], .error e) := by
                    simp [callApi, hur]
                  rw [uploadM_bind_err hcu] at h
                  exact absurd h (by simp)
                | ok v =>
                  have hcu : callApi api (.updateRef ("heads/" ++ opts.branch) csha)
                      (tr3 ++ [GitOp.createBlob
                        (readmeContent (prNum opts.ctx) opts.generatedOn shots)] ++
                        [GitOp.createBlob opts.timestamp] ++
                        [GitOp.createTree bt (uploadEntries api opts shots)] ++
                        [GitOp.createCommit (commitMessage opts) tsha [bsha]]) =
                      (tr3 ++ [GitOp.createBlob
                        (readmeContent (prNum opts.ctx) opts.generatedOn shots)] ++
                        [GitOp.createBlob opts.timestamp] ++
                        [GitOp.createTree bt (uploadEntries api opts shots)] ++
                        [GitOp.createCommit (commitMessage opts) tsha [bsha]] ++
                        [GitOp.updateRef ("heads/" ++ opts.branch) csha], .ok v) := by
                    simp [callApi, hur]
                  rw [uploadM_bind_ok hcu] at h
                  rw [uploadM_pure_def] at h
                  try dsimp only at h
                  simp only [Prod.mk.injEq, Except.ok.injEq] at h
                  obtain ⟨htr', hups⟩ := h
                  refine ⟨by rw [← hups, g3], ext1, bsha, bt, tsha, csha, hall1, ?_⟩
                  rw [← htr', g1]
                  simp

theorem setup_kinds (op : GitOp) (h : isSetupOp op = true) :
    isCreateBlob op = false ∧ isCreateTree op = false ∧ isCreateCommit op = false ∧
      isUpdateRef op = false := by
  cases op <;> simp_all [isSetupOp, isCreateBlob, isCreateTree, isCreateCommit, isUpdateRef]

theorem blob_kinds (op : GitOp) (h : isCreateBlob op = true) :
    isCreateTree op = false ∧ isCreateCommit op = false ∧ isUpdateRef op = false := by
  cases op <;> simp_all [isCreateBlob, isCreateTree, isCreateCommit, isUpdateRef]

theorem all_kind_count_zero {l : List GitOp} {p q : GitOp → Bool}
    (hall : ∀ op ∈ l, q op = true) (himp : ∀ op, q op = true → p op = false) :
    l.countP p = 0 :=
  List.countP_eq_zero.2 fun a ha => by simp [himp a (hall a ha)]

theorem callApi_eq (api : GitApi) (op : GitOp) (t : List GitOp) :
    callApi api op t = (t ++ [op], api.respond op) := rfl

/-- Tail of the shape analysis: once branch resolution, the base-commit read
and the per-artifact blob loop have succeeded, the remaining requests are
the two synthesized blobs, the tree, the commit and — last, if reached at
all — the ref update. -/
theorem uploadScreenshots_shape_tail (api : GitApi) (shots : List CapturedScreenshot)
    (opts : UploadOptions) (tr ext1 ext2 : List GitOp) (bsha bt : String)
    (blobs : List (String × String)) (ups2 : List UploadedScreenshot)
    (hall1 : ∀ op ∈ ext1, isSetupOp op = true)
    (hall2 : ∀ op ∈ ext2, isCreateBlob op = true)
    (heq1 : resolveBaseSha api opts.branch tr = (tr ++ ext1, .ok bsha))
    (hgc : api.respond (.getCommit bsha) = .ok bt)
    (heq2 : uploadEach api opts (screenshotDirOf opts) shots
        (tr ++ ext1 ++ [GitOp.getCommit bsha]) =
      (tr ++ ext1 ++ [GitOp.getCommit bsha] ++ ext2, .ok (blobs, ups2)))
    (c1b : ext1.countP isCreateBlob = 0) (c1t : ext1.countP isCreateTree = 0)
    (c1c : ext1.countP isCreateCommit = 0) (c1u : ext1.countP isUpdateRef = 0)
    (c2be : ext2.countP isCreateBlob = shots.length)
    (c2t : ext2.countP isCreateTree = 0) (c2c : ext2.countP isCreateCommit = 0)
    (c2u : ext2.countP isUpdateRef = 0) :
    ∃ ext res, uploadScreenshots api shots opts tr = (tr ++ ext, res) ∧
      (∀ e, res = .error e →
        (∃ op, api.respond op = .error e) ∨ ∃ p, api.readFile p = .error e) ∧
      ((∀ op ∈ ext, isUpdateRef op = false) ∨
        (∃ pre sha, ext = pre ++ [GitOp.updateRef ("heads/" ++ opts.branch) sha] ∧
          (∀ op ∈ pre, isUpdateRef op = false) ∧
          pre.countP isCreateBlob = shots.length + 2 ∧
          pre.countP isCreateTree = 1 ∧
          pre.countP isCreateCommit = 1)) ∧
      ext.countP isCreateBlob ≤ shots.length + 2 ∧
      ext.countP isCreateTree ≤ 1 ∧
      ext.countP isCreateCommit ≤ 1 ∧
      ext.countP isUpdateRef ≤ 1 := by
  have hgcok : callApi api (.getCommit bsha) (tr ++ ext1) =
      (tr ++ ext1 ++ [GitOp.getCommit bsha], .ok bt) := by
    rw [callApi_eq, hgc]
  have hpre_noupd : ∀ op ∈ ext1 ++ [GitOp.getCommit bsha] ++ ext2,
      isUpdateRef op = false := by
    intro op hop
    rcases List.mem_append.1 hop with h1 | h1
    · rcases List.mem_append.1 h1 with h2 | h2
      · exact (setup_kinds op (hall1 op h2)).2.2.2
      · rcases List.mem_singleton.1 h2 with rfl
        rfl
    · exact (blob_kinds op (hall2 op h1)).2.2
  have cpb : (ext1 ++ [GitOp.getCommit bsha] ++ ext2).countP isCreateBlob = shots.length := by
    simp [List.countP_append, c1b, c2be, List.countP_cons, isCreateBlob]
  have cpt : (ext1 ++ [GitOp.getCommit bsha] ++ ext2).countP isCreateTree = 0 := by
    simp [List.countP_append, c1t, c2t, List.countP_cons, isCreateTree]
  have cpc : (ext1 ++ [GitOp.getCommit bsha] ++ ext2).countP isCreateCommit = 0 := by
    simp [List.countP_append, c1c, c2c, List.countP_cons, isCreateCommit]
  have cpu : (ext1 ++ [GitOp.getCommit bsha] ++ ext2).countP isUpdateRef = 0 := by
    simp [List.countP_append, c1u, c2u, List.countP_cons, isUpdateRef]
  cases hrb : api.respond
      (.createBlob (readmeContent (prNum opts.ctx) opts.generatedOn shots)) with
  | error e0 =>
    refine ⟨ext1 ++ [GitOp.getCommit bsha] ++ ext2 ++
      [GitOp.createBlob (readmeContent (prNum opts.ctx) opts.generatedOn shots)],
      .error e0, ?_, ?_, ?_, ?_, ?_, ?_, ?_⟩
    · unfold uploadScreenshots
      try dsimp only
      rw [uploadM_bind_ok heq1]
      try dsimp only
      rw [uploadM_bind_ok hgcok]
      try dsimp only
      rw [uploadM_bind_ok heq2]
      try dsimp only
      rw [uploadM_bind_err (by rw [callApi_eq, hrb] :
        callApi api (.createBlob (readmeContent (prNum opts.ctx) opts.generatedOn shots))
            (tr ++ ext1 ++ [GitOp.getCommit bsha] ++ ext2) =
          (tr ++ ext1 ++ [GitOp.getCommit bsha] ++ ext2 ++
            [GitOp.createBlob (readmeContent (prNum opts.ctx) opts.generatedOn shots)],
            .error e0))]
      simp
    · intro e he; cases he
      exact Or.inl ⟨.createBlob (readmeContent (prNum opts.ctx) opts.generatedOn shots), hrb⟩
    · refine Or.inl fun op hop => ?_
      rcases List.mem_append.1 hop with h1 | h1
      · exact hpre_noupd op h1
      · rcases List.mem_singleton.1 h1 with rfl
        rfl
    · simp only [List.countP_append, c1b, c2be, List.countP_cons, List.countP_nil, isCreateBlob]
      try simp
      try omega
    · simp only [List.countP_append, c1t, c2t, List.countP_cons, List.countP_nil, isCreateTree]
      try simp
      try omega
    · simp only [List.countP_append, c1c, c2c, List.countP_cons, List.countP_nil, isCreateCommit]
      try simp
      try omega
    · simp only [List.countP_append, c1u, c2u, List.countP_cons, List.countP_nil, isUpdateRef]
      try simp
      try omega
  | ok rsha =>
    have hrbok : callApi api
        (.createBlob (readmeContent (prNum opts.ctx) opts.generatedOn shots))
        (tr ++ ext1 ++ [GitOp.getCommit bsha] ++ ext2) =
        (tr ++ ext1 ++ [GitOp.getCommit bsha] ++ ext2 ++
          [GitOp.createBlob (readmeContent (prNum opts.ctx) opts.generatedOn shots)],
          .ok rsha) := by
      rw [callApi_eq, hrb]
    cases hlb : api.respond (.createBlob opts.timestamp) with
    | error e0 =>
      refine ⟨ext1 ++ [GitOp.getCommit bsha] ++ ext2 ++
        [GitOp.createBlob (readmeContent (prNum opts.ctx) opts.generatedOn shots),
         GitOp.createBlob opts.timestamp],
        .error e0, ?_, ?_, ?_, ?_, ?_, ?_, ?_⟩
      · unfold uploadScreenshots
        try dsimp only
        rw [uploadM_bind_ok heq1]
        try dsimp only
        rw [uploadM_bind_ok hgcok]
        try dsimp only
        rw [uploadM_bind_ok heq2]
        try dsimp only
        rw [uploadM_bind_ok hrbok]
        try dsimp only
        rw [uploadM_bind_err (by rw [callApi_eq, hlb] :
          callApi api (.createBlob opts.timestamp)
              (tr ++ ext1 ++ [GitOp.getCommit bsha] ++ ext2 ++
                [GitOp.createBlob (readmeContent (prNum opts.ctx) opts.generatedOn shots)]) =
            (tr ++ ext1 ++ [GitOp.getCommit bsha] ++ ext2 ++
              [GitOp.createBlob (readmeContent (prNum opts.ctx) opts.generatedOn shots)] ++
              [GitOp.createBlob opts.timestamp],
              .error e0))]
        simp
      · intro e he; cases he
        exact Or.inl ⟨.createBlob opts.timestamp, hlb⟩
      · refine Or.inl fun op hop => ?_
        rcases List.mem_append.1 hop with h1 | h1
        · exact hpre_noupd op h1
        · simp only [List.mem_cons, List.mem_singleton, List.not_mem_nil, or_false] at h1
          rcases h1 with rfl | rfl <;> rfl
      · simp only [List.countP_append, c1b, c2be, List.countP_cons, List.countP_nil, isCreateBlob]
        try simp
        try omega
      · simp only [List.countP_append, c1t, c2t, List.countP_cons, List.countP_nil, isCreateTree]
        try simp
        try omega
      · simp only [List.countP_append, c1c, c2c, List.countP_cons, List.countP_nil, isCreateCommit]
        try simp
        try omega
      · simp only [List.countP_append, c1u, c2u, List.countP_cons, List.countP_nil, isUpdateRef]
        try simp
        try omega
    | ok lsha =>
      have hlbok : callApi api (.createBlob opts.timestamp)
          (tr ++ ext1 ++ [GitOp.getCommit bsha] ++ ext2 ++
            [GitOp.createBlob (readmeContent (prNum opts.ctx) opts.generatedOn shots)]) =
          (tr ++ ext1 ++ [GitOp.getCommit bsha] ++ ext2 ++
            [GitOp.createBlob (readmeContent (prNum opts.ctx) opts.generatedOn shots)] ++
            [GitOp.createBlob opts.timestamp],
            .ok lsha) := by
        rw [callApi_eq, hlb]
      cases htc : api.respond (.createTree bt (blobs ++
          [(screenshotDirOf opts ++ "/README.md", rsha),
           ("pr-" ++ toString (prNum opts.ctx) ++ "/latest", lsha)])) with
      | error e0 =>
        refine ⟨ext1 ++ [GitOp.getCommit bsha] ++ ext2 ++
          [GitOp.createBlob (readmeContent (prNum opts.ctx) opts.generatedOn shots),
           GitOp.createBlob opts.timestamp,
           GitOp.createTree bt (blobs ++
             [(screenshotDirOf opts ++ "/README.md", rsha),
              ("pr-" ++ toString (prNum opts.ctx) ++ "/latest", lsha)])],
          .error e0, ?_, ?_, ?_, ?_, ?_, ?_, ?_⟩
        · unfold uploadScreenshots
          try dsimp only
          rw [uploadM_bind_ok heq1]
          try dsimp only
          rw [uploadM_bind_ok hgcok]
          try dsimp only
          rw [uploadM_bind_ok heq2]
          try dsimp only
          rw [uploadM_bind_ok hrbok]
          try dsimp only
          rw [uploadM_bind_ok hlbok]
          try dsimp only
          rw [uploadM_bind_err (by rw [callApi_eq, htc] :
            callApi api (.createTree bt (blobs ++
                [(screenshotDirOf opts ++ "/README.md", rsha),
                 ("pr-" ++ toString (prNum opts.ctx) ++ "/latest", lsha)]))
                (tr ++ ext1 ++ [GitOp.getCommit bsha] ++ ext2 ++
                  [GitOp.createBlob (readmeContent (prNum opts.ctx) opts.generatedOn shots)] ++
                  [GitOp.createBlob opts.timestamp]) =
              (tr ++ ext1 ++ [GitOp.getCommit bsha] ++ ext2 ++
                [GitOp.createBlob (readmeContent (prNum opts.ctx) opts.generatedOn shots)] ++
                [GitOp.createBlob opts.timestamp] ++
                [GitOp.createTree bt (blobs ++
                  [(screenshotDirOf opts ++ "/README.md", rsha),
                   ("pr-" ++ toString (prNum opts.ctx) ++ "/latest", lsha)])],
                .error e0))]
          simp
        · intro e he; cases he
          exact Or.inl ⟨.createTree bt (blobs ++
            [(screenshotDirOf opts ++ "/README.md", rsha),
             ("pr-" ++ toString (prNum opts.ctx) ++ "/latest", lsha)]), htc⟩
        · refine Or.inl fun op hop => ?_
          rcases List.mem_append.1 hop with h1 | h1
          · exact hpre_noupd op h1
          · simp only [List.mem_cons, List.mem_singleton, List.not_mem_nil, or_false] at h1
            rcases h1 with rfl | rfl | rfl <;> rfl
        · simp only [List.countP_append, c1b, c2be, List.countP_cons, List.countP_nil,
            isCreateBlob]
          try simp
          try omega
        · simp only [List.countP_append, c1t, c2t, List.countP_cons, List.countP_nil,
            isCreateTree]
          try simp
          try omega
        · simp only [List.countP_append, c1c, c2c, List.countP_cons, List.countP_nil,
            isCreateCommit]
          try simp
          try omega
        · simp only [List.countP_append, c1u, c2u, List.countP_cons, List.countP_nil,
            isUpdateRef]
          try simp
          try omega
      | ok tsha =>
        have htcok : callApi api (.createTree bt (blobs ++
            [(screenshotDirOf opts ++ "/README.md", rsha),
             ("pr-" ++ toString (prNum opts.ctx) ++ "/latest", lsha)]))
            (tr ++ ext1 ++ [GitOp.getCommit bsha] ++ ext2 ++
              [GitOp.createBlob (readmeContent (prNum opts.ctx) opts.generatedOn shots)] ++
              [GitOp.createBlob opts.timestamp]) =
            (tr ++ ext1 ++ [GitOp.getCommit bsha] ++ ext2 ++
              [GitOp.createBlob (readmeContent (prNum opts.ctx) opts.generatedOn shots)] ++
              [GitOp.createBlob opts.timestamp] ++
              [GitOp.createTree bt (blobs ++
                [(screenshotDirOf opts ++ "/README.md", rsha),
                 ("pr-" ++ toString (prNum opts.ctx) ++ "/latest", lsha)])],
              .ok tsha) := by
          rw [callApi_eq, htc]
        cases hcm : api.respond (.createCommit (commitMessage opts) tsha [bsha]) with
        | error e0 =>
          refine ⟨ext1 ++ [GitOp.getCommit bsha] ++ ext2 ++
            [GitOp.createBlob (readmeContent (prNum opts.ctx) opts.generatedOn shots),
             GitOp.createBlob opts.timestamp,
             GitOp.createTree bt (blobs ++
               [(screenshotDirOf opts ++ "/README.md", rsha),
                ("pr-" ++ toString (prNum opts.ctx) ++ "/latest", lsha)]),
             GitOp.createCommit (commitMessage opts) tsha [bsha]],
            .error e0, ?_, ?_, ?_, ?_, ?_, ?_, ?_⟩
          · unfold uploadScreenshots
            try dsimp only
            rw [uploadM_bind_ok heq1]
            try dsimp only
            rw [uploadM_bind_ok hgcok]
            try dsimp only
            rw [uploadM_bind_ok heq2]
            try dsimp only
            rw [uploadM_bind_ok hrbok]
            try dsimp only
            rw [uploadM_bind_ok hlbok]
            try dsimp only
            rw [uploadM_bind_ok htcok]
            try dsimp only
            rw [uploadM_bind_err (by rw [callApi_eq, hcm] :
              callApi api (.createCommit (commitMessage opts) tsha [bsha])
                  (tr ++ ext1 ++ [GitOp.getCommit bsha] ++ ext2 ++
                    [GitOp.createBlob
                      (readmeContent (prNum opts.ctx) opts.generatedOn shots)] ++
                    [GitOp.createBlob opts.timestamp] ++
                    [GitOp.createTree bt (blobs ++
                      [(screenshotDirOf opts ++ "/README.md", rsha),
                       ("pr-" ++ toString (prNum opts.ctx) ++ "/latest", lsha)])]) =
                (tr ++ ext1 ++ [GitOp.getCommit bsha] ++ ext2 ++
                  [GitOp.createBlob
                    (readmeContent (prNum opts.ctx) opts.generatedOn shots)] ++
                  [GitOp.createBlob opts.timestamp] ++
                  [GitOp.createTree bt (blobs ++
                    [(screenshotDirOf opts ++ "/README.md", rsha),
                     ("pr-" ++ toString (prNum opts.ctx) ++ "/latest", lsha)])] ++
                  [GitOp.createCommit (commitMessage opts) tsha [bsha]],
                  .error e0))]
            simp
          · intro e he; cases he
            exact Or.inl ⟨.createCommit (commitMessage opts) tsha [bsha], hcm⟩
          · refine Or.inl fun op hop => ?_
            rcases List.mem_append.1 hop with h1 | h1
            · exact hpre_noupd op h1
            · simp only [List.mem_cons, List.mem_singleton, List.not_mem_nil, or_false] at h1
              rcases h1 with rfl | rfl | rfl | rfl <;> rfl
          · simp only [List.countP_append, c1b, c2be, List.countP_cons, List.countP_nil,
              isCreateBlob]
            try simp
            try omega
          · simp only [List.countP_append, c1t, c2t, List.countP_cons, List.countP_nil,
              isCreateTree]
            try simp
            try omega
          · simp only [List.countP_append, c1c, c2c, List.countP_cons, List.countP_nil,
              isCreateCommit]
            try simp
            try omega
          · simp only [List.countP_append, c1u, c2u, List.countP_cons, List.countP_nil,
              isUpdateRef]
            try simp
            try omega
        | ok csha =>
          have hcmok : callApi api (.createCommit (commitMessage opts) tsha [bsha])
              (tr ++ ext1 ++ [GitOp.getCommit bsha] ++ ext2 ++
                [GitOp.createBlob (readmeContent (prNum opts.ctx) opts.generatedOn shots)] ++
                [GitOp.createBlob opts.timestamp] ++
                [GitOp.createTree bt (blobs ++
                  [(screenshotDirOf opts ++ "/README.md", rsha),
                   ("pr-" ++ toString (prNum opts.ctx) ++ "/latest", lsha)])]) =
              (tr ++ ext1 ++ [GitOp.getCommit bsha] ++ ext2 ++
                [GitOp.createBlob (readmeContent (prNum opts.ctx) opts.generatedOn shots)] ++
                [GitOp.createBlob opts.timestamp] ++
                [GitOp.createTree bt (blobs ++
                  [(screenshotDirOf opts ++ "/README.md", rsha),
                   ("pr-" ++ toString (prNum opts.ctx) ++ "/latest", lsha)])] ++
                [GitOp.createCommit (commitMessage opts) tsha [bsha]],
                .ok csha) := by
            rw [callApi_eq, hcm]
          have hext_noupd : ∀ op ∈ ext1 ++ [GitOp.getCommit bsha] ++ ext2 ++
              [GitOp.createBlob (readmeContent (prNum opts.ctx) opts.generatedOn shots),
               GitOp.createBlob opts.timestamp,
               GitOp.createTree bt (blobs ++
                 [(screenshotDirOf opts ++ "/README.md", rsha),
                  ("pr-" ++ toString (prNum opts.ctx) ++ "/latest", lsha)]),
               GitOp.createCommit (commitMessage opts) tsha [bsha]],
              isUpdateRef op = false := by
            intro op hop
            rcases List.mem_append.1 hop with h1 | h1
            · exact hpre_noupd op h1
            · simp only [List.mem_cons, List.mem_singleton, List.not_mem_nil, or_false] at h1
              rcases h1 with rfl | rfl | rfl | rfl <;> rfl
          have hfin : ∀ u : Except GitErr String,
              api.respond (.updateRef ("heads/" ++ opts.branch) csha) = u →
              uploadScreenshots api shots opts tr =
                (tr ++ ((ext1 ++ [GitOp.getCommit bsha] ++ ext2 ++
                  [GitOp.createBlob (readmeContent (prNum opts.ctx) opts.generatedOn shots),
                   GitOp.createBlob opts.timestamp,
                   GitOp.createTree bt (blobs ++
                     [(screenshotDirOf opts ++ "/README.md", rsha),
                      ("pr-" ++ toString (prNum opts.ctx) ++ "/latest", lsha)]),
                   GitOp.createCommit (commitMessage opts) tsha [bsha]]) ++
                  [GitOp.updateRef ("heads/" ++ opts.branch) csha]),
                 match u with
                 | .ok _ => .ok ups2
                 | .error e => .error e) := by
            intro u hu
            unfold uploadScreenshots
            try dsimp only
            rw [uploadM_bind_ok heq1]
            try dsimp only
            rw [uploadM_bind_ok hgcok]
            try dsimp only
            rw [uploadM_bind_ok heq2]
            try dsimp only
            rw [uploadM_bind_ok hrbok]
            try dsimp only
            rw [uploadM_bind_ok hlbok]
            try dsimp only
            rw [uploadM_bind_ok htcok]
            try dsimp only
            rw [uploadM_bind_ok hcmok]
            try dsimp only
            cases u with
            | ok v =>
              rw [uploadM_bind_ok (by rw [callApi_eq, hu] :
                callApi api (.updateRef ("heads/" ++ opts.branch) csha)
                    (tr ++ ext1 ++ [GitOp.getCommit bsha] ++ ext2 ++
                      [GitOp.createBlob
                        (readmeContent (prNum opts.ctx) opts.generatedOn shots)] ++
                      [GitOp.createBlob opts.timestamp] ++
                      [GitOp.createTree bt (blobs ++
                        [(screenshotDirOf opts ++ "/README.md", rsha),
                         ("pr-" ++ toString (prNum opts.ctx) ++ "/latest", lsha)])] ++
                      [GitOp.createCommit (commitMessage opts) tsha [bsha]]) =
                  (tr ++ ext1 ++ [GitOp.getCommit bsha] ++ ext2 ++
                    [GitOp.createBlob
                      (readmeContent (prNum opts.ctx) opts.generatedOn shots)] ++
                    [GitOp.createBlob opts.timestamp] ++
                    [GitOp.createTree bt (blobs ++
                      [(screenshotDirOf opts ++ "/README.md", rsha),
                       ("pr-" ++ toString (prNum opts.ctx) ++ "/latest", lsha)])] ++
                    [GitOp.createCommit (commitMessage opts) tsha [bsha]] ++
                    [GitOp.updateRef ("heads/" ++ opts.branch) csha],
                    .ok v))]
              rw [uploadM_pure_def]
              try dsimp only
              simp
            | error e =>
              rw [uploadM_bind_err (by rw [callApi_eq, hu] :
                callApi api (.updateRef ("heads/" ++ opts.branch) csha)
                    (tr ++ ext1 ++ [GitOp.getCommit bsha] ++ ext2 ++
                      [GitOp.createBlob
                        (readmeContent (prNum opts.ctx) opts.generatedOn shots)] ++
                      [GitOp.createBlob opts.timestamp] ++
                      [GitOp.createTree bt (blobs ++
                        [(screenshotDirOf opts ++ "/README.md", rsha),
                         ("pr-" ++ toString (prNum opts.ctx) ++ "/latest", lsha)])] ++
                      [GitOp.createCommit (commitMessage opts) tsha [bsha]]) =
                  (tr ++ ext1 ++ [GitOp.getCommit bsha] ++ ext2 ++
                    [GitOp.createBlob
                      (readmeContent (prNum opts.ctx) opts.generatedOn shots)] ++
                    [GitOp.createBlob opts.timestamp] ++
                    [GitOp.createTree bt (blobs ++
                      [(screenshotDirOf opts ++ "/README.md", rsha),
                       ("pr-" ++ toString (prNum opts.ctx) ++ "/latest", lsha)])] ++
                    [GitOp.createCommit (commitMessage opts) tsha [bsha]] ++
                    [GitOp.updateRef ("heads/" ++ opts.branch) csha],
                    .error e))]
              simp
          refine ⟨(ext1 ++ [GitOp.getCommit bsha] ++ ext2 ++
            [GitOp.createBlob (readmeContent (prNum opts.ctx) opts.generatedOn shots),
             GitOp.createBlob opts.timestamp,
             GitOp.createTree bt (blobs ++
               [(screenshotDirOf opts ++ "/README.md", rsha),
                ("pr-" ++ toString (prNum opts.ctx) ++ "/latest", lsha)]),
             GitOp.createCommit (commitMessage opts) tsha [bsha]]) ++
            [GitOp.updateRef ("heads/" ++ opts.branch) csha],
            (match api.respond (.updateRef ("heads/" ++ opts.branch) csha) with
             | .ok _ => .ok ups2
             | .error e => .error e), hfin _ rfl, ?_, ?_, ?_, ?_, ?_, ?_⟩
          · intro e he
            cases hu : api.respond (.updateRef ("heads/" ++ opts.branch) csha) with
            | ok v => rw [hu] at he; exact absurd he (by simp)
            | error e1 =>
              rw [hu] at he
              refine Or.inl ⟨.updateRef ("heads/" ++ opts.branch) csha, ?_⟩
              rw [hu]
              cases he
              rfl
          · refine Or.inr ⟨ext1 ++ [GitOp.getCommit bsha] ++ ext2 ++
              [GitOp.createBlob (readmeContent (prNum opts.ctx) opts.generatedOn shots),
               GitOp.createBlob opts.timestamp,
               GitOp.createTree bt (blobs ++
                 [(screenshotDirOf opts ++ "/README.md", rsha),
                  ("pr-" ++ toString (prNum opts.ctx) ++ "/latest", lsha)]),
               GitOp.createCommit (commitMessage opts) tsha [bsha]], csha, rfl,
              hext_noupd, ?_, ?_, ?_⟩
            · simp only [List.countP_append, c1b, c2be, List.countP_cons, List.countP_nil,
                isCreateBlob]
              try simp
              try omega
            · simp only [List.countP_append, c1t, c2t, List.countP_cons, List.countP_nil,
                isCreateTree]
              try simp
              try omega
            · simp only [List.countP_append, c1c, c2c, List.countP_cons, List.countP_nil,
                isCreateCommit]
              try simp
              try omega
          · simp only [List.countP_append, c1b, c2be, List.countP_cons, List.countP_nil,
              isCreateBlob, isUpdateRef]
            try simp
            try omega
          · simp only [List.countP_append, c1t, c2t, List.countP_cons, List.countP_nil,
              isCreateTree, isUpdateRef]
            try simp
            try omega
          · simp only [List.countP_append, c1c, c2c, List.countP_cons, List.countP_nil,
              isCreateCommit, isUpdateRef]
            try simp
            try omega
          · simp only [List.countP_append, c1u, c2u, List.countP_cons, List.countP_nil,
              isUpdateRef]
            try simp
            try omega

/-- Complete shape of an upload run: the trace only ever grows by the
protocol's own requests; an error is always one some API or file-read call
returned; if the ref-update request appears at all it is the final request
and is preceded by exactly one blob per artifact plus the two synthesized
blobs, one tree creation and one commit creation; and no request kind is
ever issued more often than the protocol's single pass needs. -/
theorem uploadScreenshots_shape (api : GitApi) (shots : List CapturedScreenshot)
    (opts : UploadOptions) (tr : List GitOp) :
    ∃ ext res, uploadScreenshots api shots opts tr = (tr ++ ext, res) ∧
      (∀ e, res = .error e →
        (∃ op, api.respond op = .error e) ∨ ∃ p, api.readFile p = .error e) ∧
      ((∀ op ∈ ext, isUpdateRef op = false) ∨
        (∃ pre sha, ext = pre ++ [GitOp.updateRef ("heads/" ++ opts.branch) sha] ∧
          (∀ op ∈ pre, isUpdateRef op = false) ∧
          pre.countP isCreateBlob = shots.length + 2 ∧
          pre.countP isCreateTree = 1 ∧
          pre.countP isCreateCommit = 1)) ∧
      ext.countP isCreateBlob ≤ shots.length + 2 ∧
      ext.countP isCreateTree ≤ 1 ∧
      ext.countP isCreateCommit ≤ 1 ∧
      ext.countP isUpdateRef ≤ 1 := by
  obtain ⟨ext1, res1, heq1, hall1, herr1⟩ := resolveBaseSha_shape api opts.branch tr
  have c1b : ext1.countP isCreateBlob = 0 :=
    all_kind_count_zero hall1 (fun op h => (setup_kinds op h).1)
  have c1t : ext1.countP isCreateTree = 0 :=
    all_kind_count_zero hall1 (fun op h => (setup_kinds op h).2.1)
  have c1c : ext1.countP isCreateCommit = 0 :=
    all_kind_count_zero hall1 (fun op h => (setup_kinds op h).2.2.1)
  have c1u : ext1.countP isUpdateRef = 0 :=
    all_kind_count_zero hall1 (fun op h => (setup_kinds op h).2.2.2)
  cases res1 with
  | error e0 =>
    refine ⟨ext1, .error e0, ?_, ?_, ?_, ?_, ?_, ?_, ?_⟩
    · unfold uploadScreenshots
      try dsimp only
      rw [uploadM_bind_err heq1]
    · intro e he; cases he; exact Or.inl (herr1 e0 rfl)
    · exact Or.inl fun op hop => (setup_kinds op (hall1 op hop)).2.2.2
    · simp [c1b]
    · simp [c1t]
    · simp [c1c]
    · simp [c1u]
  | ok bsha =>
    have hc : callApi api (.getCommit bsha) (tr ++ ext1) =
        (tr ++ ext1 ++ [GitOp.getCommit bsha], api.respond (.getCommit bsha)) := rfl
    cases hgc : api.respond (.getCommit bsha) with
    | error e0 =>
      refine ⟨ext1 ++ [GitOp.getCommit bsha], .error e0, ?_, ?_, ?_, ?_, ?_, ?_, ?_⟩
      · unfold uploadScreenshots
        try dsimp only
        rw [uploadM_bind_ok heq1]
        try dsimp only
        rw [uploadM_bind_err (by rw [hc, hgc])]
        simp
      · intro e he; cases he; exact Or.inl ⟨.getCommit bsha, hgc⟩
      · refine Or.inl fun op hop => ?_
        rcases List.mem_append.1 hop with h1 | h1
        · exact (setup_kinds op (hall1 op h1)).2.2.2
        · rcases List.mem_singleton.1 h1 with rfl
          rfl
      · simp [List.countP_append, c1b, List.countP_cons, isCreateBlob]
      · simp [List.countP_append, c1t, List.countP_cons, isCreateTree]
      · simp [List.countP_append, c1c, List.countP_cons, isCreateCommit]
      · simp [List.countP_append, c1u, List.countP_cons, isUpdateRef]
    | ok bt =>
      obtain ⟨ext2, res2, heq2, hall2, hlen2, herr2⟩ :=
        uploadEach_shape api opts (screenshotDirOf opts) shots
          (tr ++ ext1 ++ [GitOp.getCommit bsha])
      have c2b : ext2.countP isCreateBlob ≤ shots.length :=
        Nat.le_trans (List.countP_le_length _) hlen2
      have c2t : ext2.countP isCreateTree = 0 :=
        all_kind_count_zero hall2 (fun op h => (blob_kinds op h).1)
      have c2c : ext2.countP isCreateCommit = 0 :=
        all_kind_count_zero hall2 (fun op h => (blob_kinds op h).2.1)
      have c2u : ext2.countP isUpdateRef = 0 :=
        all_kind_count_zero hall2 (fun op h => (blob_kinds op h).2.2)
      cases res2 with
      | error e0 =>
        refine ⟨ext1 ++ [GitOp.getCommit bsha] ++ ext2, .error e0, ?_, ?_, ?_, ?_, ?_, ?_, ?_⟩
        · unfold uploadScreenshots
          try dsimp only
          rw [uploadM_bind_ok heq1]
          try dsimp only
          rw [uploadM_bind_ok (by rw [hc, hgc])]
          try dsimp only
          rw [uploadM_bind_err heq2]
          simp
        · intro e he; cases he; exact herr2 e0 rfl
        · refine Or.inl fun op hop => ?_
          rcases List.mem_append.1 hop with h1 | h1
          · rcases List.mem_append.1 h1 with h2 | h2
            · exact (setup_kinds op (hall1 op h2)).2.2.2
            · rcases List.mem_singleton.1 h2 with rfl
              rfl
          · exact (blob_kinds op (hall2 op h1)).2.2
        · simp only [List.countP_append, c1b]
          simp [List.countP_cons, isCreateBlob]
          omega
        · simp [List.countP_append, c1t, c2t, List.countP_cons, isCreateTree]
        · simp [List.countP_append, c1c, c2c, List.countP_cons, isCreateCommit]
        · simp [List.countP_append, c1u, c2u, List.countP_cons, isUpdateRef]
      | ok p =>
        obtain ⟨blobs, ups2⟩ := p
        obtain ⟨g1, g2, g3⟩ :=
          uploadEach_ok api opts (screenshotDirOf opts) shots _ _ _ _ heq2
        have hext2 : ext2 = shots.map (fun s => GitOp.createBlob (contentOf api s)) :=
          List.append_cancel_left g1
        have c2be : ext2.countP isCreateBlob = shots.length := by
          rw [List.countP_eq_length.2 hall2, hext2, List.length_map]
        exact uploadScreenshots_shape_tail api shots opts tr ext1 ext2 bsha bt blobs ups2
          hall1 hall2 heq1 hgc heq2 c1b c1t c1c c1u c2be c2t c2c c2u

/-! ## Witness fixtures for the upload protocol -/

/-- An API world where every request and file read succeeds. -/
def wApi : GitApi := ⟨fun _ => .ok "s", fun _ => .ok "bytes"⟩

/-- Two captured artifacts, as produced for targets "home" and "about". -/
def wShots : List CapturedScreenshot :=
  [⟨"home", "chromium", "screenshots/home-chromium.png"⟩,
   ⟨"about", "chromium", "screenshots/about-chromium.png"⟩]

/-- Upload options for PR 7 on `o/r`, branch `b`, run timestamp `T`. -/
def wOpts : UploadOptions := ⟨"b", ⟨"o", "r", some 7, 42⟩, "T", "G"⟩

/-- The PublishedArtifacts the fixture upload returns. -/
def wUps : List UploadedScreenshot :=
  [⟨"home", "chromium",
    "https://raw.githubusercontent.com/o/r/b/pr-7/T/home-chromium.png"⟩,
   ⟨"about", "chromium",
    "https://raw.githubusercontent.com/o/r/b/pr-7/T/about-chromium.png"⟩]

/-! ## C3: all-or-nothing upload, error propagation, ref update last -/

/-- C3: in every run of the upload protocol, no request kind is issued more
often than its single pass needs (nothing is retried), any error returned to
the caller is exactly one an API call or file read produced (and an error
result carries no PublishedArtifacts, by the result type), and whenever the
branch-ref update request appears in the trace it is the very last request,
issued only after every per-artifact blob, both synthesized blobs, the tree
and the commit were created. -/
theorem upload_all_or_nothing (api : GitApi) (shots : List CapturedScreenshot)
    (opts : UploadOptions) :
    ((uploadScreenshots api shots opts []).1.countP isCreateBlob ≤ shots.length + 2 ∧
     (uploadScreenshots api shots opts []).1.countP isCreateTree ≤ 1 ∧
     (uploadScreenshots api shots opts []).1.countP isCreateCommit ≤ 1 ∧
     (uploadScreenshots api shots opts []).1.countP isUpdateRef ≤ 1) ∧
    (∀ e, (uploadScreenshots api shots opts []).2 = .error e →
      (∃ op, api.respond op = .error e) ∨ ∃ p, api.readFile p = .error e) ∧
    (∀ rf sh, GitOp.updateRef rf sh ∈ (uploadScreenshots api shots opts []).1 →
      (uploadScreenshots api shots opts []).1.getLast? = some (GitOp.updateRef rf sh) ∧
      (uploadScreenshots api shots opts []).1.countP isCreateBlob = shots.length + 2 ∧
      (uploadScreenshots api shots opts []).1.countP isCreateTree = 1 ∧
      (uploadScreenshots api shots opts []).1.countP isCreateCommit = 1) := by
  obtain ⟨ext, res, heq, herr, hdisj, hb, ht, hc, hu⟩ :=
    uploadScreenshots_shape api shots opts []
  rw [List.nil_append] at heq
  rw [heq]
  refine ⟨⟨hb, ht, hc, hu⟩, ?_, ?_⟩
  · intro e he
    exact herr e he
  · intro rf sh hmem
    rcases hdisj with hnone | ⟨pre, sha, hexteq, hprenone, hpb, hpt, hpc⟩
    · exact absurd (hnone _ hmem) (by simp [isUpdateRef])
    · subst hexteq
      have hsame : GitOp.updateRef rf sh = GitOp.updateRef ("heads/" ++ opts.branch) sha := by
        rcases List.mem_append.1 hmem with h1 | h1
        · exact absurd (hprenone _ h1) (by simp [isUpdateRef])
        · exact List.mem_singleton.1 h1
      refine ⟨?_, ?_, ?_, ?_⟩
      · rw [hsame]
        simp
      · simp [List.countP_append, hpb, List.countP_cons, isCreateBlob]
      · simp [List.countP_append, hpt, List.countP_cons, isCreateTree]
      · simp [List.countP_append, hpc, List.countP_cons, isCreateCommit]

/-- C3 witness: a fully successful upload of two artifacts — the ref-update
request is in the trace, is its last request, and the object counts match. -/
theorem upload_all_or_nothing_witness :
    GitOp.updateRef "heads/b" "s" ∈ (uploadScreenshots wApi wShots wOpts []).1 ∧
    ((uploadScreenshots wApi wShots wOpts []).1.getLast? =
        some (GitOp.updateRef "heads/b" "s") ∧
      (uploadScreenshots wApi wShots wOpts []).1.countP isCreateBlob = wShots.length + 2 ∧
      (uploadScreenshots wApi wShots wOpts []).1.countP isCreateTree = 1 ∧
      (uploadScreenshots wApi wShots wOpts []).1.countP isCreateCommit = 1) :=
  ⟨by decide, (upload_all_or_nothing wApi wShots wOpts).2.2 "heads/b" "s" (by decide)⟩

/-! ## C5: one PublishedArtifact per Artifact with a deterministic URL -/

/-- C5: a successful upload returns exactly one PublishedArtifact per input
Artifact, in order, and each URL is computed from the repository owner and
name, the branch, and the destination path holding the run timestamp and the
original filename — a pure function of the run context, never of an API
response. -/
theorem upload_publishes_one_per_artifact (api : GitApi) (shots : List CapturedScreenshot)
    (opts : UploadOptions) (ups : List UploadedScreenshot)
    (h : (uploadScreenshots api shots opts []).2 = .ok ups) :
    ups = shots.map (fun s =>
      { name := s.name, browser := s.browser,
        url := rawUrl opts (screenshotDirOf opts ++ "/" ++ basename s.path) }) ∧
    ups.length = shots.length := by
  rcases heq : uploadScreenshots api shots opts [] with ⟨tr', res⟩
  rw [heq] at h
  dsimp only at h
  obtain ⟨h1, _⟩ := uploadScreenshots_ok api shots opts [] tr' ups
    (heq.trans (by rw [h]))
  constructor
  · rw [h1]
    rfl
  · rw [h1, List.length_map]

/-- C5 witness: two artifacts for "home" and "about" yield exactly two
PublishedArtifacts with the expected raw-content URLs. -/
theorem upload_publishes_one_per_artifact_witness :
    (uploadScreenshots wApi wShots wOpts []).2 = .ok wUps ∧
    (wUps = wShots.map (fun s =>
        { name := s.name, browser := s.browser,
          url := rawUrl wOpts (screenshotDirOf wOpts ++ "/" ++ basename s.path) }) ∧
      wUps.length = wShots.length) :=
  ⟨by decide, upload_publishes_one_per_artifact wApi wShots wOpts wUps (by decide)⟩

/-! ## C6: the synthesized README and latest-pointer objects -/

/-- C6: every successful upload creates, besides one blob per artifact at
`pr-<id>/<timestamp>/<originalFilename>`, a README manifest blob listing the
batch and a latest-pointer blob whose content is exactly the run timestamp,
and the created tree maps precisely those paths — the per-artifact paths,
`<dir>/README.md`, and `pr-<id>/latest`. -/
theorem upload_synthesized_objects (api : GitApi) (shots : List CapturedScreenshot)
    (opts : UploadOptions) (ups : List UploadedScreenshot)
    (h : (uploadScreenshots api shots opts []).2 = .ok ups) :
    GitOp.createBlob (readmeContent (prNum opts.ctx) opts.generatedOn shots) ∈
      (uploadScreenshots api shots opts []).1 ∧
    GitOp.createBlob opts.timestamp ∈ (uploadScreenshots api shots opts []).1 ∧
    ∃ bt entries, GitOp.createTree bt entries ∈ (uploadScreenshots api shots opts []).1 ∧
      entries.map Prod.fst =
        shots.map (fun s => screenshotDirOf opts ++ "/" ++ basename s.path) ++
          [screenshotDirOf opts ++ "/README.md",
           "pr-" ++ toString (prNum opts.ctx) ++ "/latest"] := by
  rcases heq : uploadScreenshots api shots opts [] with ⟨tr', res⟩
  rw [heq] at h
  dsimp only at h
  obtain ⟨_, pre, bsha, bt, tsha, csha, hall, htr⟩ :=
    uploadScreenshots_ok api shots opts [] tr' ups (heq.trans (by rw [h]))
  refine ⟨?_, ?_, bt, uploadEntries api opts shots, ?_, ?_⟩
  · rw [htr]
    simp
  · rw [htr]
    simp
  · rw [htr]
    simp
  · simp [uploadEntries, List.map_map, Function.comp]

/-- C6 witness: the synthesized objects of the concrete successful upload. -/
theorem upload_synthesized_objects_witness :
    (uploadScreenshots wApi wShots wOpts []).2 = .ok wUps ∧
    (GitOp.createBlob (readmeContent (prNum wOpts.ctx) wOpts.generatedOn wShots) ∈
        (uploadScreenshots wApi wShots wOpts []).1 ∧
      GitOp.createBlob wOpts.timestamp ∈ (uploadScreenshots wApi wShots wOpts []).1 ∧
      ∃ bt entries,
        GitOp.createTree bt entries ∈ (uploadScreenshots wApi wShots wOpts []).1 ∧
        entries.map Prod.fst =
          wShots.map (fun s => screenshotDirOf wOpts ++ "/" ++ basename s.path) ++
            [screenshotDirOf wOpts ++ "/README.md",
             "pr-" ++ toString (prNum wOpts.ctx) ++ "/latest"]) :=
  ⟨by decide, upload_synthesized_objects wApi wShots wOpts wUps (by decide)⟩

end AutoPrScreenshots
